import Mathlib

/-!
Verification development for the veratour-piano-lavoro shift-block
consolidation and tariff-computation engine.

The repository contains four per-partner computation modules
(src/Alpitour/consuntivoalpitour.py, src/Aliservice/consuntivoaliservice.py,
src/Rusconi/consuntivorusconi.py, src/noncosniderare/consuntivoveratour.py).
This file gives a shallow embedding of the parts of those modules that the
checked claims mention, and proves or refutes each claim.

Modelling conventions:
- Timestamps are integers counting whole minutes (pandas Timestamps in the
  source always carry whole minutes at the points embedded here: they are
  built from dates plus HH:MM offsets).  A calendar day is 1440 minutes and
  `Timestamp.normalize()` is flooring to a multiple of 1440 (Euclidean division,
  the slash on Int).
- Monetary amounts are rationals; Python's `round(x, 2)` is modelled as
  round-half-to-even at two decimals (`round2`).
- Cell values that can be missing (`None` / `NaN`) are `Option` values.
- Free text is modelled as `List Char`.
-/

namespace PianoLavoro

/-! ## Interval math: night-overlap minutes -/

/-- Overlap in minutes of the half-open interval `[s, e)` with the window
`[ws, we)`; this is the body of the per-window step in the Alpitour and
veratour `night_minutes` sweep (`s = max(interval_start, n_start)`,
`e = min(interval_end, n_end)`, counted only when positive). -/
def overlapMin (s e ws we : Int) : Int :=
  let s2 := max s ws
  let e2 := min e we
  if s2 < e2 then e2 - s2 else 0

/-- Alpitour `night_minutes`: minutes of `[s, e)` inside the nightly window
23:00-06:00, sweeping the window instances anchored on the day before, the
day of, and the day after `s` (`base = s.normalize() - 1 day`; for
`k = 0, 1, 2` the window is `[base + k days + 23h, base + k days + 1 day + 6h)`). -/
def nightMinutesAlp (s e : Int) : Int :=
  if e ≤ s then 0
  else
    let base := 1440 * (s / 1440) - 1440
    overlapMin s e (base + 1380) (base + 1800) +
      overlapMin s e (base + 1440 + 1380) (base + 1440 + 1800) +
      overlapMin s e (base + 2880 + 1380) (base + 2880 + 1800)

/-- Veratour `night_minutes`: same triple-day sweep with window 23:00-05:00
(`n_end = day + 1 day + 5h`). -/
def nightMinutesVer (s e : Int) : Int :=
  if e ≤ s then 0
  else
    let base := 1440 * (s / 1440) - 1440
    overlapMin s e (base + 1380) (base + 1740) +
      overlapMin s e (base + 1440 + 1380) (base + 1440 + 1740) +
      overlapMin s e (base + 2880 + 1380) (base + 2880 + 1740)

/-- Rusconi minute-level night predicate: hour 22, hour 23, or hour below 6
(window 22:00-06:00), where the hour of a timestamp is
the mod-1440 remainder divided by 60. -/
def rusconiIsNight (t : Int) : Bool :=
  let h := (t % 1440) / 60
  h == 22 || h == 23 || decide (h < 6)

/-- Rusconi `night_minutes`: the source iterates minute by minute from
`start_dt` to `end_dt`, counting the minutes whose wall-clock hour lies in
the 22:00-06:00 band; on whole-minute timestamps that loop counts exactly
the minutes `s + k`, `k < e - s`, satisfying the band predicate.  Returns 0
when `e ≤ s` (the source also returns 0 for `start >= end`). -/
def nightMinutesRus (s e : Int) : Int :=
  if e ≤ s then 0
  else Int.ofNat ((List.range (e - s).toNat).countP (fun k => rusconiIsNight (s + Int.ofNat k)))

/-! ## Overtime (extra minutes) computations -/

/-- Alpitour `compute_extra_min` (src/Alpitour/consuntivoalpitour.py):
zero when the NO DEC flag is set or no departure anchor was selected;
otherwise the post-departure coverage ends at `atd + window` minutes
(`cfg.extra_window_minutes = 30`) and the extra minutes are the part of
that coverage falling after the nominal end of the shift. -/
def alpComputeExtraMin (atdSel : Option Int) (endDt : Int) (noDec : Bool) (window : Int) : Int :=
  match noDec, atdSel with
  | true, _ => 0
  | false, none => 0
  | false, some atd =>
    let fine := atd + window
    if endDt < atd then fine - endDt
    else if fine ≤ endDt then 0
    else fine - endDt

/-- Veratour `compute_extra_min`: zero under the NO DEC flag or a missing
anchor, otherwise the positive part of `atd - end_dt`. -/
def verComputeExtraMin (atdSel : Option Int) (endDt : Int) (noDec : Bool) : Int :=
  match noDec, atdSel with
  | true, _ => 0
  | false, none => 0
  | false, some atd => if atd ≤ endDt then 0 else atd - endDt

/-- Rounding policy application (the `RoundingPolicy.apply` of the source):
mode NONE or a non-positive step leaves the minutes unchanged; FLOOR and
CEIL round down / up to a multiple of the step.  (The sources instantiate
only NONE and CEIL-to-5.) -/
inductive RoundMode where
  | rnone : RoundMode
  | rfloor : RoundMode
  | rceil : RoundMode
deriving DecidableEq

/-- Application of a rounding policy to a number of minutes. -/
def roundingApply (mode : RoundMode) (step : Int) (minutes : Int) : Int :=
  match mode with
  | RoundMode.rnone => minutes
  | RoundMode.rfloor => if step ≤ 0 then minutes else step * (minutes / step)
  | RoundMode.rceil => if step ≤ 0 then minutes else step * ((minutes + step - 1) / step)

/-- Aliservice `compute_extra_min`: `(raw, rounded)` pair; zero when NO DEC
is set, the base end is missing, or no departure time is available; zero
when the departure does not fall strictly after the base end; otherwise the
raw difference plus its ceiling-to-5-minutes rounding
(`cfg.rounding_extra = CEIL 5`). -/
def aliComputeExtraMin (endDt : Option Int) (atdDt : Option Int) (noDec : Bool) : Int × Int :=
  match noDec, endDt, atdDt with
  | true, _, _ => (0, 0)
  | false, none, _ => (0, 0)
  | false, some _, none => (0, 0)
  | false, some e, some atd =>
    if atd - e ≤ 0 then (0, 0)
    else (atd - e, roundingApply RoundMode.rceil 5 (atd - e))

/-- Rusconi delay-based extra minutes (src/Rusconi/consuntivorusconi.py,
inside `process_files`): the extra is the delay `atd - std` when an actual
departure is available and is strictly later than the scheduled one,
otherwise zero.  The NO DEC flag is not consulted on this path. -/
def rusconiExtraMin (atdSel : Option Int) (std : Int) : Int :=
  match atdSel with
  | none => 0
  | some atd => if std < atd then atd - std else 0

/-- The slice of a Rusconi aggregated block that its overtime computation
reads, plus the `no_dec` flag the block carries (stored and displayed by
the module). -/
structure RusconiSlice where
  noDec : Bool
  std : Int
  atd : Option Int
deriving DecidableEq

/-- Overtime minutes of a Rusconi block as computed by `process_files`:
the code never reads `noDec` here. -/
def rusconiBlockExtra (b : RusconiSlice) : Int :=
  rusconiExtraMin b.atd b.std

/-! ## Money: two-decimal rounding and holiday totals -/

/-- Round-half-to-even to an integer, the tie behaviour of Python's
builtin `round`. -/
def roundHalfEvenInt (q : ℚ) : ℤ :=
  let f := ⌊q⌋
  let r := q - (f : ℚ)
  if r < 1 / 2 then f
  else if 1 / 2 < r then f + 1
  else if Even f then f else f + 1

/-- Python `round(x, 2)` on exact monetary values. -/
def round2 (q : ℚ) : ℚ :=
  (roundHalfEvenInt (q * 100) : ℚ) / 100

/-- Aliservice final block total (src/Aliservice/consuntivoaliservice.py,
`process_files`): the holiday multiplier is applied once to the unrounded
component sum and only the result is rounded to two decimals. -/
def aliTotaleBlocco (turno extra night : ℚ) (festivo : Bool) (mult : ℚ) : ℚ :=
  round2 (if festivo then (turno + extra + night) * mult else turno + extra + night)

/-- Veratour final block total: `subtotal * (mult if festivo else 1)`,
rounded to two decimals on output. -/
def verTotaleBlocco (turno extra night : ℚ) (festivo : Bool) (mult : ℚ) : ℚ :=
  round2 ((turno + extra + night) * (if festivo then mult else 1))

/-! ## Forward fill of the shift text -/

/-- Plain forward fill with a carried value, the Aliservice
`ffill_src.ffill()`: a missing cell receives the carried value, a present
cell passes through and becomes the new carried value. -/
def ffillPlain {α : Type} : Option α → List (Option α) → List (Option α)
  | _, [] => []
  | carry, none :: rest => carry :: ffillPlain carry rest
  | _, some v :: rest => some v :: ffillPlain (some v) rest

/-- Aliservice forward fill of one sheet: the carried value starts out
absent at the top of the sheet. -/
def aliFfill {α : Type} (cells : List (Option α)) : List (Option α) :=
  ffillPlain none cells

/-- Lookup of the carried value for a date in the by-date fill state
(newest entry first). -/
def lookupDate {α : Type} (st : List (Int × α)) (d : Int) : Option α :=
  (st.find? (fun p => p.1 == d)).map (fun p => p.2)

/-- Worker for the per-date forward fill. -/
def ffillByDateAux {α : Type} : List (Int × α) → List (Int × Option α) → List (Option α)
  | _, [] => []
  | st, (d, none) :: rest => lookupDate st d :: ffillByDateAux st rest
  | st, (d, some v) :: rest => some v :: ffillByDateAux ((d, v) :: st) rest

/-- Alpitour / veratour forward fill of one sheet
(`ffill_src.groupby(sdf[date]).ffill()`): each date keeps its own carried
value; a missing cell receives the last value previously seen on a row of
the same date. -/
def alpFfill {α : Type} (rows : List (Int × Option α)) : List (Option α) :=
  ffillByDateAux [] rows

/-- Per-sheet application of the Aliservice fill: the fill state is a
per-sheet local of `process_files`, so it is reset at every sheet. -/
def aliFillSheets {α : Type} (sheets : List (List (Option α))) : List (List (Option α)) :=
  sheets.map aliFfill

/-- Nearest preceding present value, the reading of forward fill used by
the specification: the last non-empty cell strictly before position `i`. -/
def lastSomeBefore {α : Type} (cells : List (Option α)) (i : Nat) : Option α :=
  ((cells.take i).reverse).findSome? id

/-- Nearest preceding present value on the same date, the behaviour of the
per-date fill. -/
def lastSomeBeforeDate {α : Type} (rows : List (Int × Option α)) (d : Int) (i : Nat) : Option α :=
  (((rows.take i).filter (fun p => p.1 == d)).reverse).findSome? (fun p => p.2)

/-! ## Datetime anchoring -/

/-- Anchor a wall-clock time on a calendar day (`to_dt` of the sources;
`d` is a day index, times are hour/minute pairs). -/
def toDt (d : Int) (hh mm : Nat) : Int :=
  1440 * d + 60 * (hh : Int) + (mm : Int)

/-- Overnight correction of the sources: the end datetime gains one day
exactly when it is strictly before the start datetime. -/
def overnightEnd (startDt endDt0 : Int) : Int :=
  if endDt0 < startDt then endDt0 + 1440 else endDt0

/-- Anchoring of a departure candidate (`process_files`): the time is put
on the block's date and rolled forward one day when it falls strictly
before the block start. -/
def anchorDeparture (d : Int) (hh mm : Nat) (startDt : Int) : Int :=
  let t := toDt d hh mm
  if t < startDt then t + 1440 else t

/-! ## Alpitour block aggregation -/

/-- The fields of one normalized Alpitour row that the aggregation loop of
`process_files` reads (rows are already date-parsed, forward-filled,
turno-parsed and datetime-anchored at this point). -/
structure AlpRow where
  date : Int
  apt : String
  turnoNorm : String
  turnoRawFfill : String
  startDt : Int
  endDt : Int
  noDec : Bool
  atdList : List Int
  stdList : List Int
  festivo : Bool
  provImporto : Option ℚ
  provExtraMin : Option Int
  provNightMin : Option Int
  order : Nat
deriving DecidableEq

/-- The Alpitour `BlockAgg` fields touched by aggregation. -/
structure AlpBlock where
  date : Int
  apt : String
  turnoNorm : String
  turnoRawFfill : String
  startDt : Int
  endDt : Int
  noDec : Bool
  atdList : List Int
  stdList : List Int
  festivo : Bool
  provImporto : Option ℚ
  provExtraMin : Option Int
  provNightMin : Option Int
  firstOrder : Nat
deriving DecidableEq

/-- The Alpitour block key `(date, apt, normalized turno)`. -/
def alpKey (r : AlpRow) : Int × String × String :=
  (r.date, r.apt, r.turnoNorm)

/-- Block creation on the first occurrence of a key. -/
def alpNewBlock (r : AlpRow) : AlpBlock :=
  { date := r.date, apt := r.apt, turnoNorm := r.turnoNorm,
    turnoRawFfill := r.turnoRawFfill, startDt := r.startDt, endDt := r.endDt,
    noDec := r.noDec, atdList := r.atdList, stdList := r.stdList,
    festivo := r.festivo, provImporto := r.provImporto,
    provExtraMin := r.provExtraMin, provNightMin := r.provNightMin,
    firstOrder := r.order }

/-- Alpitour merge on a repeat occurrence of a key: the departure lists are
extended, the holiday flag is OR'd, and the first-seen provenance (with its
provided comparison values) is moved when the new row has an earlier global
ordinal.  No other field is written. -/
def alpMergeBlock (b : AlpBlock) (r : AlpRow) : AlpBlock :=
  let b1 := { b with
    atdList := b.atdList ++ r.atdList,
    stdList := b.stdList ++ r.stdList,
    festivo := b.festivo || r.festivo }
  if r.order < b1.firstOrder then
    { b1 with
      firstOrder := r.order
      provImporto := r.provImporto
      provExtraMin := r.provExtraMin
      provNightMin := r.provNightMin }
  else b1

/-- Update of the first association-list entry holding the given key. -/
def updateAssoc {κ β : Type} [DecidableEq κ] : List (κ × β) → κ → (β → β) → List (κ × β)
  | [], _, _ => []
  | (k0, b) :: rest, k, f =>
    if k0 = k then (k0, f b) :: rest else (k0, b) :: updateAssoc rest k f

/-- Membership test for a key in the block map (Python `key in blocks`). -/
def containsKey {κ β : Type} [DecidableEq κ] (bs : List (κ × β)) (k : κ) : Bool :=
  bs.any (fun p => decide (p.1 = k))

/-- One step of the Alpitour aggregation loop: merge into the existing
block of the key, or append a fresh block (dicts preserve insertion
order). -/
def alpStep (bs : List ((Int × String × String) × AlpBlock)) (r : AlpRow) :
    List ((Int × String × String) × AlpBlock) :=
  if containsKey bs (alpKey r) then
    updateAssoc bs (alpKey r) (fun b => alpMergeBlock b r)
  else
    bs ++ [(alpKey r, alpNewBlock r)]

/-- The Alpitour aggregation scan over the ordered row sequence. -/
def alpAggregate (rows : List AlpRow) : List ((Int × String × String) × AlpBlock) :=
  rows.foldl alpStep []

/-! ## Aliservice block merge -/

/-- The Aliservice `BlockAgg` fields read or written by its merge branch. -/
structure AliBlock where
  date : Int
  apt : String
  turnoNorm : String
  startDt : Option Int
  endDt : Option Int
  noDec : Bool
  festivo : Bool
  atdList : List Int
  stdList : List Int
deriving DecidableEq

/-- Aliservice merge on a repeat occurrence of a key
(src/Aliservice/consuntivoaliservice.py, `process_files`): the departure
lists are extended and the effective end is raised to a newly observed
`fine_turno` when that is later (or when no end was known); nothing else is
written. -/
def aliMergeBlock (b : AliBlock) (atdNew stdNew : List Int) (fineTurno : Option Int) : AliBlock :=
  { b with
    atdList := b.atdList ++ atdNew,
    stdList := b.stdList ++ stdNew,
    endDt :=
      match fineTurno with
      | none => b.endDt
      | some f =>
        match b.endDt with
        | none => some f
        | some e => if e < f then some f else some e }

/-- Boolean order on optional end datetimes: an absent old end is below
everything, a present old end must not exceed the new one. -/
def optEndLE : Option Int → Option Int → Bool
  | none, _ => true
  | some _, none => false
  | some e1, some e2 => decide (e1 ≤ e2)

/-! ## Character and text helpers -/

/-- Numeric value of an ASCII digit character. -/
def digToNat (c : Char) : Nat := c.toNat - 48

/-- Python regex whitespace class (space, tab, newline, carriage return,
form feed, vertical tab). -/
def isWsCh (c : Char) : Bool := c == ' ' || (decide (9 ≤ c.toNat) && decide (c.toNat ≤ 13))

/-- Drop leading and trailing whitespace, Python `str.strip()`. -/
def stripEnds (l : List Char) : List Char :=
  ((l.dropWhile isWsCh).reverse.dropWhile isWsCh).reverse

/-- Collapse every maximal whitespace run to a single space
(body of `re.sub` with a one-or-more whitespace pattern and a space
replacement); the flag records whether the previous character was
whitespace. -/
def collapseWsAux : Bool → List Char → List Char
  | _, [] => []
  | prevWs, c :: r =>
    if isWsCh c then
      if prevWs then collapseWsAux true r else ' ' :: collapseWsAux true r
    else c :: collapseWsAux false r

/-- The sources' `normalize_spaces`: strip, then collapse inner whitespace
runs to single spaces. -/
def normalizeSpaces (l : List Char) : List Char :=
  collapseWsAux false (stripEnds l)

/-- Substring containment, Python `pat in s`. -/
def containsSub (s pat : List Char) : Bool :=
  match s with
  | [] => pat.isEmpty
  | c :: r => pat.isPrefixOf (c :: r) || containsSub r pat

/-- Leading-position match of the case-insensitive pattern
letter n, letter o, optional whitespace, letters d e c; returns the rest
after the match. -/
def matchNoDec : List Char → Option (List Char)
  | c1 :: c2 :: r2 =>
    if (c1 == 'n' || c1 == 'N') && (c2 == 'o' || c2 == 'O') then
      match r2.dropWhile isWsCh with
      | c3 :: c4 :: c5 :: r4 =>
        if (c3 == 'd' || c3 == 'D') && (c4 == 'e' || c4 == 'E') && (c5 == 'c' || c5 == 'C') then
          some r4
        else none
      | _ => none
    else none
  | _ => none

/-- Fueled scan deleting every occurrence of the no-departure marker, the
Aliservice `re.sub` with an empty replacement (scanning resumes after each
deleted occurrence; the fuel is an upper bound on the scan length and is
never exhausted when it starts at the list length plus one). -/
def removeNoDecGo : Nat → List Char → List Char
  | 0, s => s
  | _ + 1, [] => []
  | fuel + 1, c :: r =>
    match matchNoDec (c :: r) with
    | some rest => removeNoDecGo fuel rest
    | none => c :: removeNoDecGo fuel r

/-- Deletion of every no-departure marker occurrence. -/
def removeNoDec (s : List Char) : List Char := removeNoDecGo (s.length + 1) s

/-- Strip an Aliservice shift-code prefix: letters S C followed either by
digits, or by whitespace and digits, then trailing whitespace (the
anchored alternation of the source regex, with the digits-first branch
preferred); the input is returned unchanged when the prefix shape is not
present. -/
def stripScCode (s : List Char) : List Char :=
  match s with
  | c1 :: c2 :: r =>
    if (c1 == 'S' || c1 == 's') && (c2 == 'C' || c2 == 'c') then
      let ds := r.takeWhile Char.isDigit
      if ds.isEmpty then
        let r3 := r.dropWhile isWsCh
        let ds2 := r3.takeWhile Char.isDigit
        if ds2.isEmpty then s
        else (r3.dropWhile Char.isDigit).dropWhile isWsCh
      else (r.dropWhile Char.isDigit).dropWhile isWsCh
    else s
  | _ => s

/-- Greedy one-or-two-digit token candidates with regex backtracking
order: the two-digit reading is attempted before the one-digit reading.
Each candidate carries the matched text and the remaining input. -/
def d12cands : List Char → List (List Char × List Char)
  | c1 :: c2 :: r =>
    if c1.isDigit && c2.isDigit then [([c1, c2], r), ([c1], c2 :: r)]
    else if c1.isDigit then [([c1], c2 :: r)] else []
  | [c1] => if c1.isDigit then [([c1], [])] else []
  | [] => []

/-- Exactly-two-digit token. -/
def d2exact : List Char → Option (List Char × List Char)
  | c1 :: c2 :: r => if c1.isDigit && c2.isDigit then some ([c1, c2], r) else none
  | _ => none

/-- Single-character class match. -/
def chClass (cs : List Char) : List Char → Option (List Char)
  | c :: r => if cs.contains c then some r else none
  | [] => none

/-- The three range-separator glyphs accepted by the shift regexes:
hyphen, en dash, em dash. -/
def dashGlyphs : List Char := ['-', '–', '—']

/-- Numeric value of a digit string. -/
def digitsToNat (l : List Char) : Nat := l.foldl (fun a c => 10 * a + digToNat c) 0

/-- Python `str.isdigit()`: non-empty and all digits. -/
def pyIsdigit (l : List Char) : Bool := !l.isEmpty && l.all Char.isDigit

/-! ## Aliservice shift-text parser -/

/-- Aliservice pattern 1, shape HH:MM-HH:MM (one-or-two-digit hours, a
period or colon, exactly two minute digits, optional whitespace around a
dash glyph). -/
def aliP1 (s : List Char) : Option (List (List Char)) :=
  (d12cands s).findSome? (fun g1p =>
    (chClass ['.', ':'] g1p.2).bind (fun r2 =>
    (d2exact r2).bind (fun g2p =>
    (chClass dashGlyphs (g2p.2.dropWhile isWsCh)).bind (fun r5 =>
    (d12cands (r5.dropWhile isWsCh)).findSome? (fun g3p =>
    (chClass ['.', ':'] g3p.2).bind (fun r8 =>
    (d2exact r8).map (fun g4p => [g1p.1, g2p.1, g3p.1, g4p.1])))))))

/-- Aliservice pattern 2, shape HH-HH:MM. -/
def aliP2 (s : List Char) : Option (List (List Char)) :=
  (d12cands s).findSome? (fun g1p =>
    (chClass dashGlyphs (g1p.2.dropWhile isWsCh)).bind (fun r3 =>
    (d12cands (r3.dropWhile isWsCh)).findSome? (fun g2p =>
    (chClass ['.', ':'] g2p.2).bind (fun r6 =>
    (d2exact r6).map (fun g3p => [g1p.1, g2p.1, g3p.1])))))

/-- Aliservice pattern 3, shape HH:MM-HH. -/
def aliP3 (s : List Char) : Option (List (List Char)) :=
  (d12cands s).findSome? (fun g1p =>
    (chClass ['.', ':'] g1p.2).bind (fun r2 =>
    (d2exact r2).bind (fun g2p =>
    (chClass dashGlyphs (g2p.2.dropWhile isWsCh)).bind (fun r5 =>
    (d12cands (r5.dropWhile isWsCh)).findSome? (fun g3p =>
    some [g1p.1, g2p.1, g3p.1])))))

/-- Aliservice pattern 4, shape HH-HH. -/
def aliP4 (s : List Char) : Option (List (List Char)) :=
  (d12cands s).findSome? (fun g1p =>
    (chClass dashGlyphs (g1p.2.dropWhile isWsCh)).bind (fun r3 =>
    (d12cands (r3.dropWhile isWsCh)).findSome? (fun g2p =>
    some [g1p.1, g2p.1])))

/-- The Aliservice group-count dispatch: four groups are HH MM HH MM; with
three groups, when the cleaned text contains a colon or a period, a
two-digit second group is read as shape HH:MM-HH, otherwise as HH-HH:MM;
two groups are HH-HH. -/
def aliGroupsToHM (s : List Char) (groups : List (List Char)) : Option (Nat × Nat × Nat × Nat) :=
  match groups with
  | [g1, g2, g3, g4] => some (digitsToNat g1, digitsToNat g2, digitsToNat g3, digitsToNat g4)
  | [g1, g2, g3] =>
    if s.contains ':' || s.contains '.' then
      if pyIsdigit g2 && g2.length == 2 then
        some (digitsToNat g1, digitsToNat g2, digitsToNat g3, 0)
      else some (digitsToNat g1, 0, digitsToNat g2, digitsToNat g3)
    else some (digitsToNat g1, 0, digitsToNat g2, digitsToNat g3)
  | [g1, g2] => some (digitsToNat g1, 0, digitsToNat g2, 0)
  | _ => none

/-- The Aliservice acceptance bounds: start hour up to 23, minutes up to
59, end hour up to 47 and reduced modulo 24 in the output. -/
def aliAccept : Nat × Nat × Nat × Nat → Option ((Nat × Nat) × (Nat × Nat))
  | (h1, m1, h2, m2) =>
    if h1 ≤ 23 ∧ m1 ≤ 59 ∧ h2 ≤ 47 ∧ m2 ≤ 59 then
      some ((h1, m1), (h2 % 24, m2))
    else none

/-- The Aliservice pattern cascade: the four shapes are attempted in
order; a shape that matches but fails the bounds falls through to the next
shape (the source loop simply continues). -/
def aliCascade (s : List Char) : Option ((Nat × Nat) × (Nat × Nat)) :=
  ((aliP1 s).bind (fun g => (aliGroupsToHM s g).bind aliAccept)) <|>
  ((aliP2 s).bind (fun g => (aliGroupsToHM s g).bind aliAccept)) <|>
  ((aliP3 s).bind (fun g => (aliGroupsToHM s g).bind aliAccept)) <|>
  ((aliP4 s).bind (fun g => (aliGroupsToHM s g).bind aliAccept))

/-- Result of a shift-text parse: optional start and end times, the
no-departure flag, and the normalized grouping text. -/
structure ParsedTurno where
  startT : Option (Nat × Nat)
  endT : Option (Nat × Nat)
  noDec : Bool
  norm : List Char
deriving DecidableEq

/-- Two-digit zero-padded rendering of a number below 100. -/
def rend2 (n : Nat) : List Char := [Char.ofNat (48 + n / 10), Char.ofNat (48 + n % 10)]

/-- Rendering of a wall-clock time as HH:MM. -/
def hmRender (h m : Nat) : List Char := rend2 h ++ ':' :: rend2 m

/-- Uppercase spelling of the spaced no-departure marker. -/
def nodecSpaced : List Char := ['N', 'O', ' ', 'D', 'E', 'C']

/-- Uppercase spelling of the unspaced no-departure marker. -/
def nodecJoined : List Char := ['N', 'O', 'D', 'E', 'C']

/-- Aliservice `parse_turno`: normalize spaces; detect the no-departure
marker in the uppercased text and delete it; strip a shift-code prefix;
run the four-shape cascade.  Success yields the two times and the
canonical HH:MM-HH:MM grouping text, failure keeps the cleaned text. -/
def aliParseTurno (raw : List Char) : ParsedTurno :=
  let s0 := normalizeSpaces raw
  if s0.isEmpty then ⟨none, none, false, []⟩
  else
    let up := s0.map Char.toUpper
    let noDec := containsSub up nodecSpaced || containsSub up nodecJoined
    let s1 := stripEnds (removeNoDec s0)
    let s2 := stripEnds (stripScCode s1)
    match aliCascade s2 with
    | some ((h1, m1), (h2, m2)) =>
      ⟨some (h1, m1), some (h2, m2), noDec, hmRender h1 m1 ++ '-' :: hmRender h2 m2⟩
    | none => ⟨none, none, noDec, s2⟩

/-! ## Alpitour and veratour shift-text parser -/

/-- Replacement of en dash, em dash and minus sign by the plain hyphen,
the sources' `normalize_hyphens`. -/
def hyphMapCh (c : Char) : Char :=
  if c == '–' || c == '—' || c == '−' then '-' else c

/-- Hyphen normalization over a text. -/
def normalizeHyphens (s : List Char) : List Char := s.map hyphMapCh

/-- Candidates of the shared time token: one-or-two-digit hour, optionally
followed by a colon or period and one-or-two-digit minutes, in greedy
backtracking order (minutes-present before minutes-absent). -/
def tokenCands (s : List Char) : List ((List Char × Option (List Char)) × List Char) :=
  (d12cands s).flatMap (fun g1p =>
    (match chClass [':', '.'] g1p.2 with
     | some r2 => (d12cands r2).map (fun g2p => ((g1p.1, some g2p.1), g2p.2))
     | none => []) ++ [((g1p.1, none), g1p.2)])

/-- A leading-position match of the full time-range regex: both token
groups and the rest of the input after the match. -/
def rangeMatchAt (s : List Char) :
    Option ((List Char × Option (List Char)) × (List Char × Option (List Char)) × List Char) :=
  (tokenCands s).findSome? (fun t1 =>
    (chClass dashGlyphs (t1.2.dropWhile isWsCh)).bind (fun r3 =>
    (tokenCands (r3.dropWhile isWsCh)).findSome? (fun t2 =>
    some (t1.1, t2.1, t2.2))))

/-- A successful leftmost search of the time-range regex: the text before
the match, the four groups, and the text after the match. -/
structure RangeMatch where
  pre : List Char
  g1 : List Char
  g2 : Option (List Char)
  g3 : List Char
  g4 : Option (List Char)
  post : List Char
deriving DecidableEq

/-- Leftmost-search worker for the time-range regex, accumulating the
scanned prefix in reverse. -/
def searchRangeGo : List Char → List Char → Option RangeMatch
  | _, [] => none
  | acc, c :: r =>
    match rangeMatchAt (c :: r) with
    | some (t1, t2, post) => some ⟨acc.reverse, t1.1, t1.2, t2.1, t2.2, post⟩
    | none => searchRangeGo (c :: acc) r

/-- Leftmost search of the time-range regex. -/
def searchRange (s : List Char) : Option RangeMatch := searchRangeGo [] s

/-- A successful leftmost search of the incomplete-range fallback regex
(time token, optional whitespace, dash glyph). -/
structure SingleMatch where
  pre : List Char
  g1 : List Char
  g2 : Option (List Char)
  post : List Char
deriving DecidableEq

/-- Leading-position match of the incomplete-range fallback regex. -/
def singleMatchAt (s : List Char) :
    Option ((List Char × Option (List Char)) × List Char) :=
  (tokenCands s).findSome? (fun t1 =>
    (chClass dashGlyphs (t1.2.dropWhile isWsCh)).map (fun r3 => (t1.1, r3)))

/-- Leftmost-search worker for the fallback regex. -/
def searchSingleGo : List Char → List Char → Option SingleMatch
  | _, [] => none
  | acc, c :: r =>
    match singleMatchAt (c :: r) with
    | some (t1, post) => some ⟨acc.reverse, t1.1, t1.2, post⟩
    | none => searchSingleGo (c :: acc) r

/-- Leftmost search of the fallback regex. -/
def searchSingle (s : List Char) : Option SingleMatch := searchSingleGo [] s

/-- Candidates for the Alpitour inner time of the joined-times
substitution pattern: digits, a colon or semicolon, digits; the matched
text and the rest. -/
def timeInnerCandsAlp (s : List Char) : List (List Char × List Char) :=
  (d12cands s).flatMap (fun g1p =>
    match g1p.2 with
    | c :: r =>
      if c == ':' || c == ';' then
        (d12cands r).map (fun g2p => (g1p.1 ++ c :: g2p.1, g2p.2))
      else []
    | [] => [])

/-- Leading-position match of the Alpitour joined-times pattern (a time, a
period or semicolon, a time), yielding the replacement text with the
middle separator rewritten to a hyphen. -/
def combMatchAtAlp (s : List Char) : Option (List Char × List Char) :=
  (timeInnerCandsAlp s).findSome? (fun t1 =>
    match t1.2 with
    | c :: r =>
      if c == '.' || c == ';' then
        (timeInnerCandsAlp r).findSome? (fun t2 => some (t1.1 ++ '-' :: t2.1, t2.2))
      else none
    | [] => none)

/-- Fueled global substitution of the Alpitour joined-times pattern. -/
def subCombinedGoAlp : Nat → List Char → List Char
  | 0, s => s
  | _ + 1, [] => []
  | fuel + 1, c :: r =>
    match combMatchAtAlp (c :: r) with
    | some (rep, rest) => rep ++ subCombinedGoAlp fuel rest
    | none => c :: subCombinedGoAlp fuel r

/-- Alpitour substitution turning a period or semicolon between two
clock times into a range hyphen. -/
def subCombinedAlp (s : List Char) : List Char := subCombinedGoAlp (s.length + 1) s

/-- Candidates for the veratour inner time (colon separator only). -/
def timeInnerCandsVer (s : List Char) : List (List Char × List Char) :=
  (d12cands s).flatMap (fun g1p =>
    match g1p.2 with
    | c :: r =>
      if c == ':' then
        (d12cands r).map (fun g2p => (g1p.1 ++ c :: g2p.1, g2p.2))
      else []
    | [] => [])

/-- Leading-position match of the veratour joined-times pattern (a colon
time, a period, a colon time). -/
def combMatchAtVer (s : List Char) : Option (List Char × List Char) :=
  (timeInnerCandsVer s).findSome? (fun t1 =>
    match t1.2 with
    | c :: r =>
      if c == '.' then
        (timeInnerCandsVer r).findSome? (fun t2 => some (t1.1 ++ '-' :: t2.1, t2.2))
      else none
    | [] => none)

/-- Fueled global substitution of the veratour joined-times pattern. -/
def subCombinedGoVer : Nat → List Char → List Char
  | 0, s => s
  | _ + 1, [] => []
  | fuel + 1, c :: r =>
    match combMatchAtVer (c :: r) with
    | some (rep, rest) => rep ++ subCombinedGoVer fuel rest
    | none => c :: subCombinedGoVer fuel r

/-- Veratour substitution turning a period between two colon times into a
range hyphen. -/
def subCombinedVer (s : List Char) : List Char := subCombinedGoVer (s.length + 1) s

/-- Word-character class of the regex word-boundary assertion. -/
def isWordCh (c : Char) : Bool := c.isAlphanum || c == '_'

/-- Word-boundary-guarded match of the no-departure marker at the current
position, given the preceding character (if any). -/
def noDecBMatchAt (prev : Option Char) (s : List Char) : Option (List Char) :=
  if (match prev with | none => true | some p => !isWordCh p) then
    match matchNoDec s with
    | some rest =>
      match rest with
      | [] => some []
      | c :: _ => if isWordCh c then none else some rest
    | none => none
  else none

/-- Search worker for the word-bounded no-departure marker. -/
def noDecBSearchGo : Option Char → List Char → Bool
  | _, [] => false
  | prev, c :: r => (noDecBMatchAt prev (c :: r)).isSome || noDecBSearchGo (some c) r

/-- Search of the word-bounded no-departure marker, the Alpitour and
veratour no-departure detection. -/
def noDecSearchB (s : List Char) : Bool := noDecBSearchGo none s

/-- Fueled substitution replacing every word-bounded no-departure marker
occurrence by the canonical spaced spelling; the carried previous
character after a replacement is the final letter of the matched text
(always a word character, so the lowercase representative is adequate for
the boundary test). -/
def noDecBSubGo : Nat → Option Char → List Char → List Char
  | 0, _, s => s
  | _ + 1, _, [] => []
  | fuel + 1, prev, c :: r =>
    match noDecBMatchAt prev (c :: r) with
    | some rest => nodecSpaced ++ noDecBSubGo fuel (some 'c') rest
    | none => c :: noDecBSubGo fuel (some c) r

/-- Normalization of the no-departure marker spelling inside the grouping
text. -/
def noDecSubB (s : List Char) : List Char := noDecBSubGo (s.length + 1) none s

/-- Replacement of periods and semicolons by colons (the Alpitour
post-substitution cleanup). -/
def dotSemiToColon (c : Char) : Char :=
  if c == '.' then ':' else if c == ';' then ':' else c

/-- Replacement of periods by colons (the veratour cleanup). -/
def dotToColon (c : Char) : Char :=
  if c == '.' then ':' else c

/-- Alpitour `parse_turno`: normalize spaces, detect the word-bounded
no-departure marker, normalize hyphens, join period- or
semicolon-separated time pairs, rewrite periods and semicolons to colons,
then search the time-range regex; a missing range falls back to the
incomplete-range pattern with the end read as midnight of the next day;
the normalized grouping text replaces the matched range by its canonical
HH:MM-HH:MM form and the marker by its canonical spelling. -/
def alpParseTurno (raw : List Char) : ParsedTurno :=
  let s := normalizeSpaces raw
  let noDec := noDecSearchB s
  let s2 := (subCombinedAlp (normalizeHyphens s)).map dotSemiToColon
  match searchRange s2 with
  | some m =>
    let h1 := digitsToNat m.g1
    let m1 := match m.g2 with | some g => digitsToNat g | none => 0
    let h2 := digitsToNat m.g3
    let m2 := match m.g4 with | some g => digitsToNat g | none => 0
    let sNorm := normalizeSpaces (m.pre ++ hmRender h1 m1 ++ '-' :: hmRender h2 m2 ++ m.post)
    ⟨some (h1, m1), some (h2, m2), noDec, if noDec then noDecSubB sNorm else sNorm⟩
  | none =>
    match searchSingle s2 with
    | some m =>
      let h1 := digitsToNat m.g1
      let m1 := match m.g2 with | some g => digitsToNat g | none => 0
      let sNorm := normalizeSpaces (m.pre ++ hmRender h1 m1 ++ '-' :: hmRender 0 0 ++ m.post)
      ⟨some (h1, m1), some (0, 0), noDec, if noDec then noDecSubB sNorm else sNorm⟩
    | none => ⟨none, none, noDec, s2⟩

/-- Veratour `parse_turno`: as the Alpitour parser but with the
colon-only joined-times substitution, no semicolon rewriting, and no
incomplete-range fallback. -/
def verParseTurno (raw : List Char) : ParsedTurno :=
  let s := normalizeSpaces raw
  let noDec := noDecSearchB s
  let s2 := (subCombinedVer (normalizeHyphens s)).map dotToColon
  match searchRange s2 with
  | some m =>
    let h1 := digitsToNat m.g1
    let m1 := match m.g2 with | some g => digitsToNat g | none => 0
    let h2 := digitsToNat m.g3
    let m2 := match m.g4 with | some g => digitsToNat g | none => 0
    let sNorm := normalizeSpaces (m.pre ++ hmRender h1 m1 ++ '-' :: hmRender h2 m2 ++ m.post)
    ⟨some (h1, m1), some (h2, m2), noDec, if noDec then noDecSubB sNorm else sNorm⟩
  | none => ⟨none, none, noDec, s2⟩

/-! ## Specification-side definitions used to state the claims -/

/-- Rendering of a canonical HH:MM-HH:MM shift text with a chosen
hour-minute separator for each time and a chosen range separator. -/
def famSep (h1 m1 h2 m2 : Nat) (p dash q : Char) : List Char :=
  rend2 h1 ++ p :: rend2 m1 ++ dash :: rend2 h2 ++ q :: rend2 m2

/-- Canonical colon-hyphen rendering of an HH:MM-HH:MM shift text. -/
def famHHMM (h1 m1 h2 m2 : Nat) : List Char :=
  famSep h1 m1 h2 m2 ':' '-' ':'

/-- Modelled from the spec: acceptance rule of the claimed parser ("a
match is accepted exactly when hour components are at most 47 (later
normalized modulo 24) and minute components are between 0 and 59"). -/
def c5Interp (h1 m1 h2 m2 : Nat) : Option ((Nat × Nat) × (Nat × Nat)) :=
  if h1 ≤ 47 ∧ m1 ≤ 59 ∧ h2 ≤ 47 ∧ m2 ≤ 59 then
    some ((h1 % 24, m1), (h2 % 24, m2))
  else none

/-- Modelled from the spec: the claimed cascade ("attempts, in order,
time-range shapes HH:MM-HH:MM, HH-HH:MM, HH:MM-HH, HH-HH; the first shape
that matches the leading text wins"), each shape interpreted by its own
reading and judged by the symmetric bounds of `c5Interp`. -/
def c5SpecParse (s : List Char) : Option ((Nat × Nat) × (Nat × Nat)) :=
  match aliP1 s with
  | some [g1, g2, g3, g4] =>
    c5Interp (digitsToNat g1) (digitsToNat g2) (digitsToNat g3) (digitsToNat g4)
  | _ =>
    match aliP2 s with
    | some [g1, g2, g3] =>
      c5Interp (digitsToNat g1) 0 (digitsToNat g2) (digitsToNat g3)
    | _ =>
      match aliP3 s with
      | some [g1, g2, g3] =>
        c5Interp (digitsToNat g1) (digitsToNat g2) (digitsToNat g3) 0
      | _ =>
        match aliP4 s with
        | some [g1, g2] =>
          c5Interp (digitsToNat g1) 0 (digitsToNat g2) 0
        | _ => none

/-- The ASCII digit character of a digit value. -/
def dch (k : Nat) : Char := Char.ofNat (48 + k)

/-! ## Helper lemmas -/

theorem rend2_eq_dch (n : Nat) : rend2 n = [dch (n / 10), dch (n % 10)] := rfl

theorem isDigit_dch (k : Nat) (hk : k < 10) : (dch k).isDigit = true := by
  interval_cases k <;> rfl

theorem isWs_dch (k : Nat) (hk : k < 10) : isWsCh (dch k) = false := by
  interval_cases k <;> rfl

theorem dropWhile_ws_dch (k : Nat) (hk : k < 10) (l : List Char) :
    (dch k :: l).dropWhile isWsCh = dch k :: l := by
  interval_cases k <;> rfl

theorem d12cands_dd (k1 k2 : Nat) (h1 : k1 < 10) (h2 : k2 < 10) (l : List Char) :
    d12cands (dch k1 :: dch k2 :: l) = [([dch k1, dch k2], l), ([dch k1], dch k2 :: l)] := by
  simp [d12cands, isDigit_dch k1 h1, isDigit_dch k2 h2]

theorem d12cands_d_nonDigit (k : Nat) (hk : k < 10) (c : Char) (hc : c.isDigit = false)
    (l : List Char) :
    d12cands (dch k :: c :: l) = [([dch k], c :: l)] := by
  simp [d12cands, isDigit_dch k hk, hc]

theorem d12cands_d_nil (k : Nat) (hk : k < 10) :
    d12cands [dch k] = [([dch k], [])] := by
  simp [d12cands, isDigit_dch k hk]

theorem d12cands_nonDigit (c : Char) (hc : c.isDigit = false) (l : List Char) :
    d12cands (c :: l) = [] := by
  cases l <;> simp [d12cands, hc]

theorem d2exact_dd (k1 k2 : Nat) (h1 : k1 < 10) (h2 : k2 < 10) (l : List Char) :
    d2exact (dch k1 :: dch k2 :: l) = some ([dch k1, dch k2], l) := by
  simp [d2exact, isDigit_dch k1 h1, isDigit_dch k2 h2]

theorem chClass_dotColon_dch (k : Nat) (hk : k < 10) (l : List Char) :
    chClass ['.', ':'] (dch k :: l) = none := by
  interval_cases k <;> rfl

theorem chClass_colonDot_dch (k : Nat) (hk : k < 10) (l : List Char) :
    chClass [':', '.'] (dch k :: l) = none := by
  interval_cases k <;> rfl

theorem chClass_dash_dch (k : Nat) (hk : k < 10) (l : List Char) :
    chClass dashGlyphs (dch k :: l) = none := by
  interval_cases k <;> rfl

theorem beq_dch_colon (k : Nat) (hk : k < 10) : (dch k == ':') = false := by
  interval_cases k <;> rfl

theorem beq_dch_semi (k : Nat) (hk : k < 10) : (dch k == ';') = false := by
  interval_cases k <;> rfl

theorem beq_dch_dot (k : Nat) (hk : k < 10) : (dch k == '.') = false := by
  interval_cases k <;> rfl

theorem beq_colon_dch (k : Nat) (hk : k < 10) : (':' == dch k) = false := by
  interval_cases k <;> rfl

theorem beq_dot_dch (k : Nat) (hk : k < 10) : ('.' == dch k) = false := by
  interval_cases k <;> rfl

theorem digToNat_dch (k : Nat) (hk : k < 10) : digToNat (dch k) = k := by
  interval_cases k <;> rfl

theorem digitsToNat_dd (k1 k2 : Nat) (h1 : k1 < 10) (h2 : k2 < 10) :
    digitsToNat [dch k1, dch k2] = 10 * k1 + k2 := by
  simp [digitsToNat, digToNat_dch k1 h1, digToNat_dch k2 h2]

theorem digitsToNat_d (k : Nat) (hk : k < 10) : digitsToNat [dch k] = k := by
  simp [digitsToNat, digToNat_dch k hk]

theorem pyIsdigit_dd (k1 k2 : Nat) (h1 : k1 < 10) (h2 : k2 < 10) :
    pyIsdigit [dch k1, dch k2] = true := by
  simp [pyIsdigit, isDigit_dch k1 h1, isDigit_dch k2 h2]

theorem hyphMap_dch (k : Nat) (hk : k < 10) : hyphMapCh (dch k) = dch k := by
  interval_cases k <;> rfl

theorem dotSemi_dch (k : Nat) (hk : k < 10) : dotSemiToColon (dch k) = dch k := by
  interval_cases k <;> rfl

theorem dotColon_dch (k : Nat) (hk : k < 10) : dotToColon (dch k) = dch k := by
  interval_cases k <;> rfl

theorem toUpper_dch (k : Nat) (hk : k < 10) : Char.toUpper (dch k) = dch k := by
  interval_cases k <;> rfl

theorem beq_dch_lower_n (k : Nat) (hk : k < 10) : (dch k == 'n') = false := by
  interval_cases k <;> rfl

theorem beq_dch_upper_n (k : Nat) (hk : k < 10) : (dch k == 'N') = false := by
  interval_cases k <;> rfl

theorem beq_upperN_dch (k : Nat) (hk : k < 10) : ('N' == dch k) = false := by
  interval_cases k <;> rfl

theorem notN_dch (k : Nat) (hk : k < 10) : (!((dch k == 'n') || (dch k == 'N'))) = true := by
  interval_cases k <;> rfl

theorem stripSc_dch (k : Nat) (hk : k < 10) (l : List Char) :
    stripScCode (dch k :: l) = dch k :: l := by
  cases l <;> interval_cases k <;> rfl

theorem overlapMin_eq (s e ws we : Int) :
    overlapMin s e ws we = max 0 (min e we - max s ws) := by
  simp only [overlapMin]
  split_ifs with h
  · omega
  · omega

theorem updateAssoc_map_fst {κ β : Type} [DecidableEq κ]
    (bs : List (κ × β)) (k : κ) (f : β → β) :
    (updateAssoc bs k f).map Prod.fst = bs.map Prod.fst := by
  induction bs with
  | nil => rfl
  | cons p rest ih =>
    obtain ⟨k0, b⟩ := p
    by_cases h : k0 = k
    · simp [updateAssoc, h]
    · simp [updateAssoc, h, ih]

theorem containsKey_eq_false_iff {κ β : Type} [DecidableEq κ]
    (bs : List (κ × β)) (k : κ) :
    containsKey bs k = false ↔ k ∉ bs.map Prod.fst := by
  rw [← Bool.not_eq_true]
  simp only [containsKey, List.any_eq_true, decide_eq_true_eq, List.mem_map]

theorem mem_updateAssoc {κ β : Type} [DecidableEq κ]
    (bs : List (κ × β)) (k : κ) (f : β → β) :
    ∀ kb ∈ updateAssoc bs k f, kb ∈ bs ∨ ∃ b0, (kb.1, b0) ∈ bs ∧ kb.2 = f b0 := by
  induction bs with
  | nil => intro kb h; simp [updateAssoc] at h
  | cons p rest ih =>
    obtain ⟨k0, b⟩ := p
    intro kb hkb
    by_cases h : k0 = k
    · simp only [updateAssoc, if_pos h] at hkb
      rcases List.mem_cons.1 hkb with h1 | h2
      · right; exact ⟨b, by simp [h1], by simp [h1]⟩
      · left; exact List.mem_cons_of_mem _ h2
    · simp only [updateAssoc, if_neg h] at hkb
      rcases List.mem_cons.1 hkb with h1 | h2
      · left; simp [h1]
      · rcases ih kb h2 with h3 | ⟨b0, hb0, hfb⟩
        · left; exact List.mem_cons_of_mem _ h3
        · right; exact ⟨b0, List.mem_cons_of_mem _ hb0, hfb⟩

theorem alpFold_nodup (rows : List AlpRow) :
    ∀ bs : List ((Int × String × String) × AlpBlock),
      (bs.map Prod.fst).Nodup → ((rows.foldl alpStep bs).map Prod.fst).Nodup := by
  induction rows with
  | nil => intro bs h; simpa using h
  | cons r rest ih =>
    intro bs h
    simp only [List.foldl_cons]
    apply ih
    by_cases hc : containsKey bs (alpKey r) = true
    · simpa [alpStep, hc, updateAssoc_map_fst] using h
    · have hnot : alpKey r ∉ bs.map Prod.fst :=
        (containsKey_eq_false_iff bs (alpKey r)).1 (by simpa using hc)
      simp only [alpStep, hc, if_false, Bool.false_eq_true]
      simp [List.nodup_append, h, hnot]

theorem alpFold_inv (P : AlpBlock → Prop) (Q : AlpRow → Prop)
    (hmerge : ∀ b r, P b → Q r → P (alpMergeBlock b r))
    (hnew : ∀ r, Q r → P (alpNewBlock r)) :
    ∀ (rows : List AlpRow) (bs : List ((Int × String × String) × AlpBlock)),
      (∀ kb ∈ bs, P kb.2) → (∀ r ∈ rows, Q r) →
      ∀ kb ∈ rows.foldl alpStep bs, P kb.2 := by
  intro rows
  induction rows with
  | nil => intro bs hbs _ kb hkb; exact hbs kb (by simpa using hkb)
  | cons r rest ih =>
    intro bs hbs hrows kb hkb
    simp only [List.foldl_cons] at hkb
    have hQr : Q r := hrows r (by simp)
    have hrest : ∀ r2 ∈ rest, Q r2 := fun r2 h2 => hrows r2 (by simp [h2])
    refine ih (alpStep bs r) ?_ hrest kb hkb
    intro kb2 hkb2
    by_cases hc : containsKey bs (alpKey r) = true
    · simp only [alpStep, hc, if_true] at hkb2
      rcases mem_updateAssoc bs (alpKey r) (fun b => alpMergeBlock b r) kb2 hkb2 with
        h1 | ⟨b0, hb0, hfb⟩
      · exact hbs kb2 h1
      · rw [hfb]; exact hmerge b0 r (hbs (kb2.1, b0) hb0) hQr
    · simp only [alpStep, hc, if_false, Bool.false_eq_true] at hkb2
      rcases List.mem_append.1 hkb2 with h1 | h2
      · exact hbs kb2 h1
      · simp at h2
        rw [h2]
        exact hnew r hQr

theorem orElse_some_left {α : Type} (x : Option α) (v : α) (y : Option α) :
    ((x <|> some v) <|> y) = (x <|> some v) := by
  cases x <;> rfl

theorem orElse_none_right {α : Type} (x : Option α) : (x <|> none) = x := by
  cases x <;> rfl

theorem findSome?_id_singleton {α : Type} (c : Option α) :
    [c].findSome? id = c := by
  cases c <;> rfl

theorem option_or_eq_orElse {α : Type} (x y : Option α) : x.or y = (x <|> y) := by
  cases x <;> rfl

theorem ffillPlain_get {α : Type} :
    ∀ (cells : List (Option α)) (carry : Option α) (i : Nat),
      (ffillPlain carry cells)[i]? =
        (cells[i]?).map (fun c => c <|> (lastSomeBefore cells i <|> carry))
  | [], carry, i => by simp [ffillPlain]
  | c :: rest, carry, 0 => by
    cases c <;> simp [ffillPlain, lastSomeBefore]
  | c :: rest, carry, i + 1 => by
    have htail : lastSomeBefore (c :: rest) (i + 1) = (lastSomeBefore rest i <|> c) := by
      simp only [lastSomeBefore, List.take_succ_cons, List.reverse_cons,
        List.findSome?_append, findSome?_id_singleton, option_or_eq_orElse]
    cases c with
    | none =>
      have ih := ffillPlain_get rest carry i
      simp only [ffillPlain, List.getElem?_cons_succ, ih, htail, orElse_none_right]
    | some v =>
      have ih := ffillPlain_get rest (some v) i
      simp only [ffillPlain, List.getElem?_cons_succ, ih, htail]
      cases hr : rest[i]? with
      | none => rfl
      | some c2 =>
        simp only [Option.map_some']
        rw [orElse_some_left]

theorem lookupDate_cons {α : Type} (d0 : Int) (v : α) (st : List (Int × α)) (d : Int) :
    lookupDate ((d0, v) :: st) d = if d0 = d then some v else lookupDate st d := by
  by_cases h : d0 = d
  · rw [lookupDate, List.find?_cons_of_pos _ (by simpa using h)]
    simp [h]
  · rw [lookupDate, List.find?_cons_of_neg _ (by simpa using h), if_neg h]
    rfl

theorem findSome?_singleton {α β : Type} (f : α → Option β) (a : α) :
    [a].findSome? f = f a := by
  cases h : f a <;> simp [List.findSome?_cons, h]

theorem lastSomeBeforeDate_cons {α : Type} (d0 : Int) (c : Option α)
    (rest : List (Int × Option α)) (d : Int) (i : Nat) :
    lastSomeBeforeDate ((d0, c) :: rest) d (i + 1) =
      (if d0 = d then (lastSomeBeforeDate rest d i <|> c) else lastSomeBeforeDate rest d i) := by
  by_cases h : d0 = d
  · have hcond : ((d0, c).1 == d) = true := by simpa using h
    rw [lastSomeBeforeDate, List.take_succ_cons, List.filter_cons, hcond, if_pos rfl,
      List.reverse_cons, List.findSome?_append, findSome?_singleton, if_pos h,
      option_or_eq_orElse]
    rfl
  · have hcond : ((d0, c).1 == d) = false := by simpa using h
    rw [lastSomeBeforeDate, List.take_succ_cons, List.filter_cons, hcond,
      if_neg (by simp), if_neg h]
    rfl

theorem ffillByDateAux_get {α : Type} :
    ∀ (rows : List (Int × Option α)) (st : List (Int × α)) (i : Nat),
      (ffillByDateAux st rows)[i]? =
        (rows[i]?).map (fun p => p.2 <|> (lastSomeBeforeDate rows p.1 i <|> lookupDate st p.1))
  | [], st, i => by simp [ffillByDateAux]
  | (d0, c) :: rest, st, 0 => by
    cases c <;> simp [ffillByDateAux, lastSomeBeforeDate]
  | (d0, c) :: rest, st, i + 1 => by
    cases c with
    | none =>
      have ih := ffillByDateAux_get rest st i
      simp only [ffillByDateAux, List.getElem?_cons_succ, ih]
      cases hr : rest[i]? with
      | none => rfl
      | some p =>
        simp only [Option.map_some']
        rw [lastSomeBeforeDate_cons]
        by_cases h : d0 = p.1
        · simp only [if_pos h, orElse_none_right]
        · simp only [if_neg h]
    | some v =>
      have ih := ffillByDateAux_get rest ((d0, v) :: st) i
      simp only [ffillByDateAux, List.getElem?_cons_succ, ih]
      cases hr : rest[i]? with
      | none => rfl
      | some p =>
        simp only [Option.map_some']
        rw [lastSomeBeforeDate_cons, lookupDate_cons]
        by_cases h : d0 = p.1
        · simp only [if_pos h]
          cases hp2 : p.2 with
          | some w => rfl
          | none =>
            cases hl : lastSomeBeforeDate rest p.1 i <;> rfl
        · simp only [if_neg h]

theorem dropWhile_eq_self_of_all {α : Type} (p : α → Bool) (l : List α)
    (h : l.all (fun c => !p c) = true) : l.dropWhile p = l := by
  cases l with
  | nil => rfl
  | cons c r =>
    simp only [List.all_cons, Bool.and_eq_true, Bool.not_eq_true'] at h
    simp [List.dropWhile_cons, h.1]

theorem stripEnds_eq_self (l : List Char) (h : l.all (fun c => !isWsCh c) = true) :
    stripEnds l = l := by
  rw [stripEnds, dropWhile_eq_self_of_all _ _ h, dropWhile_eq_self_of_all, List.reverse_reverse]
  simpa using h

theorem collapseWsAux_eq_self (l : List Char) :
    ∀ b : Bool, l.all (fun c => !isWsCh c) = true → collapseWsAux b l = l := by
  induction l with
  | nil => intro b _; rfl
  | cons c r ih =>
    intro b h
    simp only [List.all_cons, Bool.and_eq_true, Bool.not_eq_true'] at h
    simp only [collapseWsAux, h.1, Bool.false_eq_true, if_false]
    rw [ih false (by simpa using h.2)]

theorem normalizeSpaces_eq_self (l : List Char) (h : l.all (fun c => !isWsCh c) = true) :
    normalizeSpaces l = l := by
  rw [normalizeSpaces, stripEnds_eq_self l h, collapseWsAux_eq_self l false h]

theorem matchNoDec_none_head (c : Char) (l : List Char)
    (h : ((c == 'n') || (c == 'N')) = false) : matchNoDec (c :: l) = none := by
  cases l <;> simp [matchNoDec, h]

theorem removeNoDecGo_id (fuel : Nat) :
    ∀ l : List Char, l.all (fun c => !((c == 'n') || (c == 'N'))) = true →
      removeNoDecGo fuel l = l := by
  induction fuel with
  | zero => intro l _; rfl
  | succ n ih =>
    intro l h
    cases l with
    | nil => rfl
    | cons c r =>
      simp only [List.all_cons, Bool.and_eq_true, Bool.not_eq_true'] at h
      rw [removeNoDecGo, matchNoDec_none_head c r h.1]
      rw [ih r (by simpa using h.2)]

theorem removeNoDec_id (l : List Char)
    (h : l.all (fun c => !((c == 'n') || (c == 'N'))) = true) : removeNoDec l = l :=
  removeNoDecGo_id _ l h

theorem containsSub_false_of_head_absent (c0 : Char) (p : List Char) :
    ∀ s : List Char, s.all (fun c => !(c0 == c)) = true →
      containsSub s (c0 :: p) = false := by
  intro s
  induction s with
  | nil => intro _; rfl
  | cons c r ih =>
    intro h
    simp only [List.all_cons, Bool.and_eq_true, Bool.not_eq_true'] at h
    simp only [containsSub, List.isPrefixOf, h.1, Bool.false_and, Bool.false_or]
    exact ih (by simpa using h.2)

theorem noDecBMatchAt_none (prev : Option Char) (c : Char) (l : List Char)
    (h : ((c == 'n') || (c == 'N')) = false) : noDecBMatchAt prev (c :: l) = none := by
  simp only [noDecBMatchAt, matchNoDec_none_head c l h]
  split_ifs <;> rfl

theorem noDecBSearchGo_false :
    ∀ (l : List Char) (prev : Option Char),
      l.all (fun c => !((c == 'n') || (c == 'N'))) = true →
      noDecBSearchGo prev l = false := by
  intro l
  induction l with
  | nil => intro prev _; rfl
  | cons c r ih =>
    intro prev h
    simp only [List.all_cons, Bool.and_eq_true, Bool.not_eq_true'] at h
    rw [noDecBSearchGo, noDecBMatchAt_none prev c r h.1]
    simp only [Option.isSome_none, Bool.false_or]
    exact ih (some c) (by simpa using h.2)

theorem noDecSearchB_false (l : List Char)
    (h : l.all (fun c => !((c == 'n') || (c == 'N'))) = true) : noDecSearchB l = false :=
  noDecBSearchGo_false l none h

theorem subGoAlp_id (fuel : Nat) :
    ∀ l : List Char, (∀ t, t <:+ l → combMatchAtAlp t = none) →
      subCombinedGoAlp fuel l = l := by
  induction fuel with
  | zero => intro l _; rfl
  | succ n ih =>
    intro l h
    cases l with
    | nil => rfl
    | cons c r =>
      rw [subCombinedGoAlp, h (c :: r) (List.suffix_refl _)]
      rw [ih r (fun t ht => h t (ht.trans (List.suffix_cons c r)))]

theorem subCombinedAlp_id (l : List Char)
    (h : ∀ t, t <:+ l → combMatchAtAlp t = none) : subCombinedAlp l = l :=
  subGoAlp_id _ l h

theorem subGoVer_id (fuel : Nat) :
    ∀ l : List Char, (∀ t, t <:+ l → combMatchAtVer t = none) →
      subCombinedGoVer fuel l = l := by
  induction fuel with
  | zero => intro l _; rfl
  | succ n ih =>
    intro l h
    cases l with
    | nil => rfl
    | cons c r =>
      rw [subCombinedGoVer, h (c :: r) (List.suffix_refl _)]
      rw [ih r (fun t ht => h t (ht.trans (List.suffix_cons c r)))]

theorem subCombinedVer_id (l : List Char)
    (h : ∀ t, t <:+ l → combMatchAtVer t = none) : subCombinedVer l = l :=
  subGoVer_id _ l h

theorem ne_dch_colon (k : Nat) (hk : k < 10) : ¬ dch k = ':' := by
  interval_cases k <;> decide

theorem ne_dch_semi (k : Nat) (hk : k < 10) : ¬ dch k = ';' := by
  interval_cases k <;> decide

theorem ne_dch_dot (k : Nat) (hk : k < 10) : ¬ dch k = '.' := by
  interval_cases k <;> decide

theorem combAlp_nil : combMatchAtAlp [] = none := rfl

theorem combAlp_nonDigit (c : Char) (hc : c.isDigit = false) (l : List Char) :
    combMatchAtAlp (c :: l) = none := by
  simp [combMatchAtAlp, timeInnerCandsAlp, d12cands_nonDigit c hc]

theorem combAlp_dd_dash (k1 k2 : Nat) (h1 : k1 < 10) (h2 : k2 < 10) (l : List Char) :
    combMatchAtAlp (dch k1 :: dch k2 :: '-' :: l) = none := by
  simp [combMatchAtAlp, timeInnerCandsAlp, d12cands_dd k1 k2 h1 h2,
    ne_dch_colon k2 h2, ne_dch_semi k2 h2]

theorem combAlp_d_dash (k : Nat) (hk : k < 10) (l : List Char) :
    combMatchAtAlp (dch k :: '-' :: l) = none := by
  simp [combMatchAtAlp, timeInnerCandsAlp,
    d12cands_d_nonDigit k hk '-' (by rfl) l]

theorem combAlp_dd_nil (k1 k2 : Nat) (h1 : k1 < 10) (h2 : k2 < 10) :
    combMatchAtAlp [dch k1, dch k2] = none := by
  simp [combMatchAtAlp, timeInnerCandsAlp, d12cands_dd k1 k2 h1 h2,
    ne_dch_colon k2 h2, ne_dch_semi k2 h2]

theorem combAlp_d_nil (k : Nat) (hk : k < 10) :
    combMatchAtAlp [dch k] = none := by
  simp [combMatchAtAlp, timeInnerCandsAlp, d12cands_d_nil k hk]

theorem combAlp_dd_sep_dd_dash (k1 k2 k3 k4 : Nat)
    (h1 : k1 < 10) (h2 : k2 < 10) (h3 : k3 < 10) (h4 : k4 < 10)
    (p : Char) (hp : p = ':' ∨ p = '.' ∨ p = ';') (l : List Char) :
    combMatchAtAlp (dch k1 :: dch k2 :: p :: dch k3 :: dch k4 :: '-' :: l) = none := by
  rcases hp with rfl | rfl | rfl <;>
    simp [combMatchAtAlp, timeInnerCandsAlp, d12cands_dd k1 k2 h1 h2,
      d12cands_dd k3 k4 h3 h4, ne_dch_colon k2 h2, ne_dch_semi k2 h2,
      ne_dch_dot k4 h4, ne_dch_semi k4 h4]

theorem combAlp_d_sep_dd_dash (k2 k3 k4 : Nat)
    (h2 : k2 < 10) (h3 : k3 < 10) (h4 : k4 < 10)
    (p : Char) (hp : p = ':' ∨ p = '.' ∨ p = ';') (l : List Char) :
    combMatchAtAlp (dch k2 :: p :: dch k3 :: dch k4 :: '-' :: l) = none := by
  have hpd : p.isDigit = false := by rcases hp with rfl | rfl | rfl <;> rfl
  rcases hp with rfl | rfl | rfl <;>
    simp [combMatchAtAlp, timeInnerCandsAlp, d12cands_d_nonDigit k2 h2 _ hpd,
      d12cands_dd k3 k4 h3 h4, ne_dch_dot k4 h4, ne_dch_semi k4 h4]

theorem combAlp_dd_sep_dd_nil (k1 k2 k3 k4 : Nat)
    (h1 : k1 < 10) (h2 : k2 < 10) (h3 : k3 < 10) (h4 : k4 < 10)
    (q : Char) (hq : q = ':' ∨ q = '.' ∨ q = ';') :
    combMatchAtAlp (dch k1 :: dch k2 :: q :: dch k3 :: dch k4 :: []) = none := by
  rcases hq with rfl | rfl | rfl <;>
    simp [combMatchAtAlp, timeInnerCandsAlp, d12cands_dd k1 k2 h1 h2,
      d12cands_dd k3 k4 h3 h4, ne_dch_colon k2 h2, ne_dch_semi k2 h2,
      ne_dch_dot k4 h4, ne_dch_semi k4 h4]

theorem combAlp_d_sep_dd_nil (k2 k3 k4 : Nat)
    (h2 : k2 < 10) (h3 : k3 < 10) (h4 : k4 < 10)
    (q : Char) (hq : q = ':' ∨ q = '.' ∨ q = ';') :
    combMatchAtAlp (dch k2 :: q :: dch k3 :: dch k4 :: []) = none := by
  have hqd : q.isDigit = false := by rcases hq with rfl | rfl | rfl <;> rfl
  rcases hq with rfl | rfl | rfl <;>
    simp [combMatchAtAlp, timeInnerCandsAlp, d12cands_d_nonDigit k2 h2 _ hqd,
      d12cands_dd k3 k4 h3 h4, ne_dch_dot k4 h4, ne_dch_semi k4 h4]

theorem combAlp_fam_none (a b c d e f g h : Nat)
    (ha : a < 10) (hb : b < 10) (hc : c < 10) (hd : d < 10)
    (he : e < 10) (hf : f < 10) (hg : g < 10) (hh : h < 10)
    (p q : Char) (hp : p = ':' ∨ p = '.' ∨ p = ';') (hq : q = ':' ∨ q = '.' ∨ q = ';') :
    ∀ t, t <:+ (dch a :: dch b :: p :: dch c :: dch d :: '-' ::
        dch e :: dch f :: q :: dch g :: dch h :: []) →
      combMatchAtAlp t = none := by
  have hpd : p.isDigit = false := by rcases hp with rfl | rfl | rfl <;> rfl
  have hqd : q.isDigit = false := by rcases hq with rfl | rfl | rfl <;> rfl
  intro t ht
  simp only [List.suffix_cons_iff, List.suffix_nil] at ht
  rcases ht with rfl | rfl | rfl | rfl | rfl | rfl | rfl | rfl | rfl | rfl | rfl | rfl
  · exact combAlp_dd_sep_dd_dash a b c d ha hb hc hd p hp _
  · exact combAlp_d_sep_dd_dash b c d hb hc hd p hp _
  · exact combAlp_nonDigit p hpd _
  · exact combAlp_dd_dash c d hc hd _
  · exact combAlp_d_dash d hd _
  · exact combAlp_nonDigit '-' rfl _
  · exact combAlp_dd_sep_dd_nil e f g h he hf hg hh q hq
  · exact combAlp_d_sep_dd_nil f g h hf hg hh q hq
  · exact combAlp_nonDigit q hqd _
  · exact combAlp_dd_nil g h hg hh
  · exact combAlp_d_nil h hh
  · exact combAlp_nil

theorem subCombinedAlp_fam (a b c d e f g h : Nat)
    (ha : a < 10) (hb : b < 10) (hc : c < 10) (hd : d < 10)
    (he : e < 10) (hf : f < 10) (hg : g < 10) (hh : h < 10)
    (p q : Char) (hp : p = ':' ∨ p = '.' ∨ p = ';') (hq : q = ':' ∨ q = '.' ∨ q = ';') :
    subCombinedAlp (dch a :: dch b :: p :: dch c :: dch d :: '-' ::
        dch e :: dch f :: q :: dch g :: dch h :: []) =
      dch a :: dch b :: p :: dch c :: dch d :: '-' ::
        dch e :: dch f :: q :: dch g :: dch h :: [] :=
  subCombinedAlp_id _ (combAlp_fam_none a b c d e f g h ha hb hc hd he hf hg hh p q hp hq)

theorem combVer_nil : combMatchAtVer [] = none := rfl

theorem combVer_nonDigit (c : Char) (hc : c.isDigit = false) (l : List Char) :
    combMatchAtVer (c :: l) = none := by
  simp [combMatchAtVer, timeInnerCandsVer, d12cands_nonDigit c hc]

theorem combVer_dd_dash (k1 k2 : Nat) (h1 : k1 < 10) (h2 : k2 < 10) (l : List Char) :
    combMatchAtVer (dch k1 :: dch k2 :: '-' :: l) = none := by
  simp [combMatchAtVer, timeInnerCandsVer, d12cands_dd k1 k2 h1 h2,
    ne_dch_colon k2 h2]

theorem combVer_d_dash (k : Nat) (hk : k < 10) (l : List Char) :
    combMatchAtVer (dch k :: '-' :: l) = none := by
  simp [combMatchAtVer, timeInnerCandsVer,
    d12cands_d_nonDigit k hk '-' (by rfl) l]

theorem combVer_dd_nil (k1 k2 : Nat) (h1 : k1 < 10) (h2 : k2 < 10) :
    combMatchAtVer [dch k1, dch k2] = none := by
  simp [combMatchAtVer, timeInnerCandsVer, d12cands_dd k1 k2 h1 h2,
    ne_dch_colon k2 h2]

theorem combVer_d_nil (k : Nat) (hk : k < 10) :
    combMatchAtVer [dch k] = none := by
  simp [combMatchAtVer, timeInnerCandsVer, d12cands_d_nil k hk]

theorem combVer_dd_sep_dd_dash (k1 k2 k3 k4 : Nat)
    (h1 : k1 < 10) (h2 : k2 < 10) (h3 : k3 < 10) (h4 : k4 < 10)
    (p : Char) (hp : p = ':' ∨ p = '.') (l : List Char) :
    combMatchAtVer (dch k1 :: dch k2 :: p :: dch k3 :: dch k4 :: '-' :: l) = none := by
  rcases hp with rfl | rfl <;>
    simp [combMatchAtVer, timeInnerCandsVer, d12cands_dd k1 k2 h1 h2,
      d12cands_dd k3 k4 h3 h4, ne_dch_colon k2 h2, ne_dch_dot k4 h4]

theorem combVer_d_sep_dd_dash (k2 k3 k4 : Nat)
    (h2 : k2 < 10) (h3 : k3 < 10) (h4 : k4 < 10)
    (p : Char) (hp : p = ':' ∨ p = '.') (l : List Char) :
    combMatchAtVer (dch k2 :: p :: dch k3 :: dch k4 :: '-' :: l) = none := by
  have hpd : p.isDigit = false := by rcases hp with rfl | rfl <;> rfl
  rcases hp with rfl | rfl <;>
    simp [combMatchAtVer, timeInnerCandsVer, d12cands_d_nonDigit k2 h2 _ hpd,
      d12cands_dd k3 k4 h3 h4, ne_dch_dot k4 h4]

theorem combVer_dd_sep_dd_nil (k1 k2 k3 k4 : Nat)
    (h1 : k1 < 10) (h2 : k2 < 10) (h3 : k3 < 10) (h4 : k4 < 10)
    (q : Char) (hq : q = ':' ∨ q = '.') :
    combMatchAtVer (dch k1 :: dch k2 :: q :: dch k3 :: dch k4 :: []) = none := by
  rcases hq with rfl | rfl <;>
    simp [combMatchAtVer, timeInnerCandsVer, d12cands_dd k1 k2 h1 h2,
      d12cands_dd k3 k4 h3 h4, ne_dch_colon k2 h2, ne_dch_dot k4 h4]

theorem combVer_d_sep_dd_nil (k2 k3 k4 : Nat)
    (h2 : k2 < 10) (h3 : k3 < 10) (h4 : k4 < 10)
    (q : Char) (hq : q = ':' ∨ q = '.') :
    combMatchAtVer (dch k2 :: q :: dch k3 :: dch k4 :: []) = none := by
  have hqd : q.isDigit = false := by rcases hq with rfl | rfl <;> rfl
  rcases hq with rfl | rfl <;>
    simp [combMatchAtVer, timeInnerCandsVer, d12cands_d_nonDigit k2 h2 _ hqd,
      d12cands_dd k3 k4 h3 h4, ne_dch_dot k4 h4]

theorem combVer_fam_none (a b c d e f g h : Nat)
    (ha : a < 10) (hb : b < 10) (hc : c < 10) (hd : d < 10)
    (he : e < 10) (hf : f < 10) (hg : g < 10) (hh : h < 10)
    (p q : Char) (hp : p = ':' ∨ p = '.') (hq : q = ':' ∨ q = '.') :
    ∀ t, t <:+ (dch a :: dch b :: p :: dch c :: dch d :: '-' ::
        dch e :: dch f :: q :: dch g :: dch h :: []) →
      combMatchAtVer t = none := by
  have hpd : p.isDigit = false := by rcases hp with rfl | rfl <;> rfl
  have hqd : q.isDigit = false := by rcases hq with rfl | rfl <;> rfl
  intro t ht
  simp only [List.suffix_cons_iff, List.suffix_nil] at ht
  rcases ht with rfl | rfl | rfl | rfl | rfl | rfl | rfl | rfl | rfl | rfl | rfl | rfl
  · exact combVer_dd_sep_dd_dash a b c d ha hb hc hd p hp _
  · exact combVer_d_sep_dd_dash b c d hb hc hd p hp _
  · exact combVer_nonDigit p hpd _
  · exact combVer_dd_dash c d hc hd _
  · exact combVer_d_dash d hd _
  · exact combVer_nonDigit '-' rfl _
  · exact combVer_dd_sep_dd_nil e f g h he hf hg hh q hq
  · exact combVer_d_sep_dd_nil f g h hf hg hh q hq
  · exact combVer_nonDigit q hqd _
  · exact combVer_dd_nil g h hg hh
  · exact combVer_d_nil h hh
  · exact combVer_nil

theorem subCombinedVer_fam (a b c d e f g h : Nat)
    (ha : a < 10) (hb : b < 10) (hc : c < 10) (hd : d < 10)
    (he : e < 10) (hf : f < 10) (hg : g < 10) (hh : h < 10)
    (p q : Char) (hp : p = ':' ∨ p = '.') (hq : q = ':' ∨ q = '.') :
    subCombinedVer (dch a :: dch b :: p :: dch c :: dch d :: '-' ::
        dch e :: dch f :: q :: dch g :: dch h :: []) =
      dch a :: dch b :: p :: dch c :: dch d :: '-' ::
        dch e :: dch f :: q :: dch g :: dch h :: [] :=
  subCombinedVer_id _ (combVer_fam_none a b c d e f g h ha hb hc hd he hf hg hh p q hp hq)

theorem chClass_cd_colon (l : List Char) : chClass [':', '.'] (':' :: l) = some l := rfl

theorem chClass_cd_dot (l : List Char) : chClass [':', '.'] ('.' :: l) = some l := rfl

theorem chClass_dc_colon (l : List Char) : chClass ['.', ':'] (':' :: l) = some l := rfl

theorem chClass_dc_dot (l : List Char) : chClass ['.', ':'] ('.' :: l) = some l := rfl

theorem chClass_dash_hyph (l : List Char) : chClass dashGlyphs ('-' :: l) = some l := rfl

theorem chClass_dash_en (l : List Char) : chClass dashGlyphs ('–' :: l) = some l := rfl

theorem chClass_dash_em (l : List Char) : chClass dashGlyphs ('—' :: l) = some l := rfl

theorem chClass_dash_colon (l : List Char) : chClass dashGlyphs (':' :: l) = none := rfl

theorem chClass_dash_dot (l : List Char) : chClass dashGlyphs ('.' :: l) = none := rfl

theorem dropWhile_ws_hyph (l : List Char) : ('-' :: l).dropWhile isWsCh = '-' :: l := rfl

theorem dropWhile_ws_en (l : List Char) : ('–' :: l).dropWhile isWsCh = '–' :: l := rfl

theorem dropWhile_ws_em (l : List Char) : ('—' :: l).dropWhile isWsCh = '—' :: l := rfl

theorem dropWhile_ws_colon (l : List Char) : (':' :: l).dropWhile isWsCh = ':' :: l := rfl

theorem dropWhile_ws_dot (l : List Char) : ('.' :: l).dropWhile isWsCh = '.' :: l := rfl

theorem rangeMatchAt_fam (a b c d e f g h : Nat)
    (ha : a < 10) (hb : b < 10) (hc : c < 10) (hd : d < 10)
    (he : e < 10) (hf : f < 10) (hg : g < 10) (hh : h < 10) :
    rangeMatchAt (dch a :: dch b :: ':' :: dch c :: dch d :: '-' ::
        dch e :: dch f :: ':' :: dch g :: dch h :: []) =
      some (([dch a, dch b], some [dch c, dch d]),
            ([dch e, dch f], some [dch g, dch h]), []) := by
  simp [rangeMatchAt, tokenCands, d12cands_dd a b ha hb, d12cands_dd c d hc hd,
    d12cands_dd e f he hf, d12cands_dd g h hg hh,
    chClass_cd_colon, chClass_colonDot_dch b hb, chClass_colonDot_dch f hf,
    dropWhile_ws_hyph, chClass_dash_hyph, dropWhile_ws_dch e he]

theorem searchRange_fam (a b c d e f g h : Nat)
    (ha : a < 10) (hb : b < 10) (hc : c < 10) (hd : d < 10)
    (he : e < 10) (hf : f < 10) (hg : g < 10) (hh : h < 10) :
    searchRange (dch a :: dch b :: ':' :: dch c :: dch d :: '-' ::
        dch e :: dch f :: ':' :: dch g :: dch h :: []) =
      some ⟨[], [dch a, dch b], some [dch c, dch d],
            [dch e, dch f], some [dch g, dch h], []⟩ := by
  rw [searchRange, searchRangeGo, rangeMatchAt_fam a b c d e f g h ha hb hc hd he hf hg hh]
  rfl

theorem aliP1_fam (a b c d e f g h : Nat)
    (ha : a < 10) (hb : b < 10) (hc : c < 10) (hd : d < 10)
    (he : e < 10) (hf : f < 10) (hg : g < 10) (hh : h < 10)
    (p q dash : Char) (hp : p = ':' ∨ p = '.') (hq : q = ':' ∨ q = '.')
    (hdash : dash = '-' ∨ dash = '–' ∨ dash = '—') :
    aliP1 (dch a :: dch b :: p :: dch c :: dch d :: dash ::
        dch e :: dch f :: q :: dch g :: dch h :: []) =
      some [[dch a, dch b], [dch c, dch d], [dch e, dch f], [dch g, dch h]] := by
  rcases hp with rfl | rfl <;> rcases hq with rfl | rfl <;> rcases hdash with rfl | rfl | rfl <;>
    simp [aliP1, d12cands_dd a b ha hb, d12cands_dd e f he hf,
      d2exact_dd c d hc hd, d2exact_dd g h hg hh,
      chClass_dc_colon, chClass_dc_dot,
      dropWhile_ws_hyph, dropWhile_ws_en, dropWhile_ws_em,
      chClass_dash_hyph, chClass_dash_en, chClass_dash_em,
      dropWhile_ws_dch e he]

theorem aliP2_fam (a b c d e f g h : Nat)
    (ha : a < 10) (hb : b < 10) (hc : c < 10) (hd : d < 10)
    (he : e < 10) (hf : f < 10) (hg : g < 10) (hh : h < 10)
    (p q dash : Char) (hp : p = ':' ∨ p = '.') (hq : q = ':' ∨ q = '.')
    (hdash : dash = '-' ∨ dash = '–' ∨ dash = '—') :
    aliP2 (dch a :: dch b :: p :: dch c :: dch d :: dash ::
        dch e :: dch f :: q :: dch g :: dch h :: []) = none := by
  rcases hp with rfl | rfl <;> rcases hq with rfl | rfl <;> rcases hdash with rfl | rfl | rfl <;>
    simp [aliP2, d12cands_dd a b ha hb,
      dropWhile_ws_colon, dropWhile_ws_dot,
      chClass_dash_colon, chClass_dash_dot,
      dropWhile_ws_dch b hb, chClass_dash_dch b hb]

theorem aliP3_fam (a b c d e f g h : Nat)
    (ha : a < 10) (hb : b < 10) (hc : c < 10) (hd : d < 10)
    (he : e < 10) (hf : f < 10) (hg : g < 10) (hh : h < 10)
    (p q dash : Char) (hp : p = ':' ∨ p = '.') (hq : q = ':' ∨ q = '.')
    (hdash : dash = '-' ∨ dash = '–' ∨ dash = '—') :
    aliP3 (dch a :: dch b :: p :: dch c :: dch d :: dash ::
        dch e :: dch f :: q :: dch g :: dch h :: []) =
      some [[dch a, dch b], [dch c, dch d], [dch e, dch f]] := by
  rcases hp with rfl | rfl <;> rcases hq with rfl | rfl <;> rcases hdash with rfl | rfl | rfl <;>
    simp [aliP3, d12cands_dd a b ha hb, d12cands_dd e f he hf,
      d2exact_dd c d hc hd,
      chClass_dc_colon, chClass_dc_dot,
      dropWhile_ws_hyph, dropWhile_ws_en, dropWhile_ws_em,
      chClass_dash_hyph, chClass_dash_en, chClass_dash_em,
      dropWhile_ws_dch e he]

theorem aliP4_fam (a b c d e f g h : Nat)
    (ha : a < 10) (hb : b < 10) (hc : c < 10) (hd : d < 10)
    (he : e < 10) (hf : f < 10) (hg : g < 10) (hh : h < 10)
    (p q dash : Char) (hp : p = ':' ∨ p = '.') (hq : q = ':' ∨ q = '.')
    (hdash : dash = '-' ∨ dash = '–' ∨ dash = '—') :
    aliP4 (dch a :: dch b :: p :: dch c :: dch d :: dash ::
        dch e :: dch f :: q :: dch g :: dch h :: []) = none := by
  rcases hp with rfl | rfl <;> rcases hq with rfl | rfl <;> rcases hdash with rfl | rfl | rfl <;>
    simp [aliP4, d12cands_dd a b ha hb,
      dropWhile_ws_colon, dropWhile_ws_dot,
      chClass_dash_colon, chClass_dash_dot,
      dropWhile_ws_dch b hb, chClass_dash_dch b hb]

theorem aliGroupsToHM_four (s : List Char) (a b c d e f g h : Nat)
    (ha : a < 10) (hb : b < 10) (hc : c < 10) (hd : d < 10)
    (he : e < 10) (hf : f < 10) (hg : g < 10) (hh : h < 10) :
    aliGroupsToHM s [[dch a, dch b], [dch c, dch d], [dch e, dch f], [dch g, dch h]] =
      some (10 * a + b, 10 * c + d, 10 * e + f, 10 * g + h) := by
  simp [aliGroupsToHM, digitsToNat_dd a b ha hb, digitsToNat_dd c d hc hd,
    digitsToNat_dd e f he hf, digitsToNat_dd g h hg hh]

theorem fam_contains_colon (a b : Nat) (ha : a < 10) (hb : b < 10) (l : List Char) :
    ((dch a :: dch b :: ':' :: l).contains ':') = true := by
  simp [List.contains_cons]

theorem aliGroupsToHM_three_hm (s : List Char) (hcol : s.contains ':' = true)
    (a b c d e f : Nat)
    (ha : a < 10) (hb : b < 10) (hc : c < 10) (hd : d < 10)
    (he : e < 10) (hf : f < 10) :
    aliGroupsToHM s [[dch a, dch b], [dch c, dch d], [dch e, dch f]] =
      some (10 * a + b, 10 * c + d, 10 * e + f, 0) := by
  have hcond : (s.contains ':' || s.contains '.') = true := by rw [hcol]; rfl
  simp only [aliGroupsToHM, hcond, if_true, pyIsdigit_dd c d hc hd, Bool.true_and,
    List.length_cons, List.length_nil]
  norm_num
  simp [digitsToNat_dd a b ha hb, digitsToNat_dd c d hc hd, digitsToNat_dd e f he hf]

theorem aliParseTurno_clean (l : List Char)
    (hl : l.isEmpty = false)
    (hws : l.all (fun c => !isWsCh c) = true)
    (hnN : l.all (fun c => !((c == 'n') || (c == 'N'))) = true)
    (hupN : (l.map Char.toUpper).all (fun c => !('N' == c)) = true)
    (hsc : stripScCode l = l) :
    aliParseTurno l =
      match aliCascade l with
      | some ((x1, y1), (x2, y2)) =>
        ⟨some (x1, y1), some (x2, y2), false, hmRender x1 y1 ++ '-' :: hmRender x2 y2⟩
      | none => ⟨none, none, false, l⟩ := by
  simp only [aliParseTurno, normalizeSpaces_eq_self l hws, hl, Bool.false_eq_true,
    if_false, nodecSpaced, nodecJoined,
    containsSub_false_of_head_absent 'N' _ _ hupN, Bool.or_self,
    removeNoDec_id l hnN, stripEnds_eq_self l hws, hsc]

theorem aliCascade_famHHMM (h1 m1 h2 m2 : Nat)
    (hh1 : h1 < 100) (hm1 : m1 < 100) (hh2 : h2 < 100) (hm2 : m2 < 100) :
    aliCascade (dch (h1 / 10) :: dch (h1 % 10) :: ':' :: dch (m1 / 10) :: dch (m1 % 10) :: '-' ::
        dch (h2 / 10) :: dch (h2 % 10) :: ':' :: dch (m2 / 10) :: dch (m2 % 10) :: []) =
      (if h1 ≤ 23 ∧ m1 ≤ 59 ∧ h2 ≤ 47 ∧ m2 ≤ 59 then some ((h1, m1), (h2 % 24, m2))
       else if h1 ≤ 23 ∧ m1 ≤ 59 ∧ h2 ≤ 47 then some ((h1, m1), (h2 % 24, 0))
       else none) := by
  have ha : h1 / 10 < 10 := by omega
  have hb : h1 % 10 < 10 := by omega
  have hc : m1 / 10 < 10 := by omega
  have hd : m1 % 10 < 10 := by omega
  have he : h2 / 10 < 10 := by omega
  have hf : h2 % 10 < 10 := by omega
  have hg : m2 / 10 < 10 := by omega
  have hh : m2 % 10 < 10 := by omega
  have hr1 : 10 * (h1 / 10) + h1 % 10 = h1 := by omega
  have hr2 : 10 * (m1 / 10) + m1 % 10 = m1 := by omega
  have hr3 : 10 * (h2 / 10) + h2 % 10 = h2 := by omega
  have hr4 : 10 * (m2 / 10) + m2 % 10 = m2 := by omega
  rw [aliCascade,
    aliP1_fam _ _ _ _ _ _ _ _ ha hb hc hd he hf hg hh _ _ _
      (Or.inl rfl) (Or.inl rfl) (Or.inl rfl),
    aliP2_fam _ _ _ _ _ _ _ _ ha hb hc hd he hf hg hh _ _ _
      (Or.inl rfl) (Or.inl rfl) (Or.inl rfl),
    aliP3_fam _ _ _ _ _ _ _ _ ha hb hc hd he hf hg hh _ _ _
      (Or.inl rfl) (Or.inl rfl) (Or.inl rfl),
    aliP4_fam _ _ _ _ _ _ _ _ ha hb hc hd he hf hg hh _ _ _
      (Or.inl rfl) (Or.inl rfl) (Or.inl rfl)]
  simp only [Option.some_bind, Option.none_bind]
  rw [aliGroupsToHM_four _ _ _ _ _ _ _ _ _ ha hb hc hd he hf hg hh]
  rw [aliGroupsToHM_three_hm _
    (fam_contains_colon (h1 / 10) (h1 % 10) ha hb _) _ _ _ _ _ _ ha hb hc hd he hf]
  rw [hr1, hr2, hr3, hr4]
  simp only [aliAccept, Option.some_bind, Option.none_bind]
  by_cases hC1 : h1 ≤ 23 ∧ m1 ≤ 59 ∧ h2 ≤ 47 ∧ m2 ≤ 59
  · rw [if_pos hC1, if_pos hC1]
    rfl
  · rw [if_neg hC1, if_neg hC1]
    by_cases hC2 : h1 ≤ 23 ∧ m1 ≤ 59 ∧ h2 ≤ 47
    · rw [if_pos ⟨hC2.1, hC2.2.1, hC2.2.2, by omega⟩, if_pos hC2]
      rfl
    · rw [if_neg (fun hcon => hC2 ⟨hcon.1, hcon.2.1, hcon.2.2.1⟩), if_neg hC2]
      rfl

/-! ## Claim theorems -/

/-- C1 counterexample: a Rusconi block carrying the no-departure flag with
an actual departure 90 minutes after the scheduled one gets 90 minutes of
overtime, not zero - the Rusconi computation never reads the flag. -/
theorem c1_counterexample :
    rusconiBlockExtra ⟨true, 600, some 690⟩ = 90 ∧ (90 : Int) ≠ 0 := by
  constructor
  · rfl
  · decide

/-- C1 (amended): in the Alpitour, veratour and Aliservice variants the
no-departure flag forces the computed overtime minutes to zero for every
anchor, even one after the nominal end; the Rusconi variant ignores the
flag and computes overtime as the positive part of the ATD-STD delay. -/
theorem c1_no_dec_forces_zero :
    (∀ (atd : Option Int) (endDt w : Int), alpComputeExtraMin atd endDt true w = 0) ∧
    (∀ (atd : Option Int) (endDt : Int), verComputeExtraMin atd endDt true = 0) ∧
    (∀ endDt atd : Option Int, aliComputeExtraMin endDt atd true = (0, 0)) ∧
    (∀ (noDec : Bool) (std a : Int),
      rusconiBlockExtra ⟨noDec, std, some a⟩ = max 0 (a - std)) := by
  refine ⟨fun atd endDt w => rfl, fun atd endDt => rfl, fun endDt atd => rfl, ?_⟩
  intro noDec std a
  simp only [rusconiBlockExtra, rusconiExtraMin]
  split_ifs with h
  · omega
  · omega

/-- C2: in both the Aliservice and veratour variants the holiday total is
the two-decimal rounding of the unrounded component subtotal times the
multiplier - the multiplier is applied exactly once, before any rounding -
and a subtotal of 100.00 with the 20 percent multiplier yields exactly
120.00. -/
theorem c2_holiday_multiplier :
    (∀ t e n m : ℚ, aliTotaleBlocco t e n true m = round2 ((t + e + n) * m)) ∧
    (∀ t e n m : ℚ, verTotaleBlocco t e n true m = round2 ((t + e + n) * m)) ∧
    aliTotaleBlocco 100 0 0 true (6 / 5) = 120 ∧
    verTotaleBlocco 100 0 0 true (6 / 5) = 120 := by
  have h120 : round2 ((100 : ℚ) + 0 + 0 + 20) = 120 := by
    have hfl : ⌊(12000 : ℚ)⌋ = 12000 := by norm_num
    norm_num [round2, roundHalfEvenInt, hfl]
  refine ⟨fun t e n m => rfl, fun t e n m => rfl, ?_, ?_⟩
  · have : aliTotaleBlocco 100 0 0 true (6 / 5) = round2 ((100 : ℚ) + 0 + 0 + 20) := by
      norm_num [aliTotaleBlocco]
    rw [this, h120]
  · have : verTotaleBlocco 100 0 0 true (6 / 5) = round2 ((100 : ℚ) + 0 + 0 + 20) := by
      norm_num [verTotaleBlocco]
    rw [this, h120]

/-- C8: a repeat-key merge changes only the departure lists, the holiday
flag (OR of the old flag and the row's), the Aliservice effective end, and
the first-seen provenance bookkeeping; date, location, normalized shift
text, start datetime and the no-departure flag are untouched in both
variants, and the end datetime never decreases (Alpitour leaves it equal,
Aliservice only raises it). -/
theorem c8_merge_frame :
    (∀ (b : AlpBlock) (r : AlpRow),
      (alpMergeBlock b r).date = b.date ∧
      (alpMergeBlock b r).apt = b.apt ∧
      (alpMergeBlock b r).turnoNorm = b.turnoNorm ∧
      (alpMergeBlock b r).startDt = b.startDt ∧
      (alpMergeBlock b r).endDt = b.endDt ∧
      (alpMergeBlock b r).noDec = b.noDec ∧
      (alpMergeBlock b r).festivo = (b.festivo || r.festivo) ∧
      (alpMergeBlock b r).atdList = b.atdList ++ r.atdList ∧
      (alpMergeBlock b r).stdList = b.stdList ++ r.stdList) ∧
    (∀ (b : AliBlock) (a s : List Int) (f : Option Int),
      (aliMergeBlock b a s f).date = b.date ∧
      (aliMergeBlock b a s f).apt = b.apt ∧
      (aliMergeBlock b a s f).turnoNorm = b.turnoNorm ∧
      (aliMergeBlock b a s f).startDt = b.startDt ∧
      (aliMergeBlock b a s f).noDec = b.noDec ∧
      (aliMergeBlock b a s f).festivo = b.festivo ∧
      (aliMergeBlock b a s f).atdList = b.atdList ++ a ∧
      (aliMergeBlock b a s f).stdList = b.stdList ++ s ∧
      optEndLE b.endDt (aliMergeBlock b a s f).endDt = true) := by
  constructor
  · intro b r
    simp only [alpMergeBlock]
    split_ifs <;> simp
  · intro b a s f
    refine ⟨rfl, rfl, rfl, rfl, rfl, rfl, rfl, rfl, ?_⟩
    simp only [aliMergeBlock]
    cases f with
    | none => cases hb : b.endDt <;> simp [optEndLE, hb]
    | some fv =>
      cases hb : b.endDt with
      | none => simp [optEndLE, hb]
      | some e =>
        simp only [hb]
        split_ifs with h
        · simp only [optEndLE]
          rw [decide_eq_true_eq]
          omega
        · simp only [optEndLE]
          rw [decide_eq_true_eq]

/-- C9: the Alpitour aggregation never holds two blocks with the same key
(the key list of the produced block map has no duplicates), and re-running
the aggregation on the same ordered row list yields the same block map -
the scan is a pure function of its input. -/
theorem c9_determinism :
    (∀ rows : List AlpRow, ((alpAggregate rows).map Prod.fst).Nodup) ∧
    (∀ rows : List AlpRow, alpAggregate rows = alpAggregate rows) := by
  constructor
  · intro rows
    exact alpFold_nodup rows [] (by simp)
  · intro rows
    rfl

/-- C10: on every interval with start before end, each of the three
night-overlap computations returns between 0 and the interval duration in
minutes; for the window-sweep variants this rests on the three swept
window instances being pairwise disjoint, so no minute is counted twice. -/
theorem c10_night_bounds (s e : Int) (hse : s < e) :
    0 ≤ nightMinutesAlp s e ∧ nightMinutesAlp s e ≤ e - s ∧
    0 ≤ nightMinutesVer s e ∧ nightMinutesVer s e ≤ e - s ∧
    0 ≤ nightMinutesRus s e ∧ nightMinutesRus s e ≤ e - s := by
  have hrus : 0 ≤ nightMinutesRus s e ∧ nightMinutesRus s e ≤ e - s := by
    simp only [nightMinutesRus, if_neg (by omega : ¬ e ≤ s), Int.ofNat_eq_coe]
    have hc : ((List.range (e - s).toNat).countP
        (fun k => rusconiIsNight (s + Int.ofNat k))) ≤ (e - s).toNat := by
      calc ((List.range (e - s).toNat).countP (fun k => rusconiIsNight (s + Int.ofNat k)))
          ≤ (List.range (e - s).toNat).length := List.countP_le_length _
        _ = (e - s).toNat := List.length_range _
    simp only [Int.ofNat_eq_coe] at hc ⊢
    omega
  have halp : 0 ≤ nightMinutesAlp s e ∧ nightMinutesAlp s e ≤ e - s := by
    simp only [nightMinutesAlp, if_neg (by omega : ¬ e ≤ s), overlapMin_eq]
    omega
  have hver : 0 ≤ nightMinutesVer s e ∧ nightMinutesVer s e ≤ e - s := by
    simp only [nightMinutesVer, if_neg (by omega : ¬ e ≤ s), overlapMin_eq]
    omega
  exact ⟨halp.1, halp.2, hver.1, hver.2, hrus.1, hrus.2⟩

/-- C10 witness at a concrete one-night interval. -/
theorem c10_night_bounds_witness :
    0 ≤ nightMinutesAlp 1320 1560 ∧ nightMinutesAlp 1320 1560 ≤ 1560 - 1320 ∧
    0 ≤ nightMinutesVer 1320 1560 ∧ nightMinutesVer 1320 1560 ≤ 1560 - 1320 ∧
    0 ≤ nightMinutesRus 1320 1560 ∧ nightMinutesRus 1320 1560 ≤ 1560 - 1320 :=
  c10_night_bounds 1320 1560 (by decide)

/-- C6 counterexample: in the by-date fill of Alpitour and veratour a
sheet holding a row of date 1, a row of date 2, then an empty row of date
1 fills the empty row with the date-1 text, while the nearest preceding
non-empty text belongs to the date-2 row. -/
theorem c6_counterexample :
    (alpFfill [((1 : Int), some 'A'), (2, some 'B'), (1, none)])[2]? = some (some 'A') ∧
    lastSomeBefore [some 'A', some 'B', none] 2 = some 'B' ∧ 'A' ≠ 'B' := by
  refine ⟨rfl, rfl, by decide⟩

/-- C6 (amended): the Aliservice fill gives every row its own text when
present and otherwise the nearest preceding non-empty text of the sheet;
the Alpitour and veratour fill carries state per date, giving an empty row
the nearest preceding non-empty text of the same date; and the fill is
applied per sheet, so no text crosses a sheet boundary. -/
theorem c6_forward_fill :
    (∀ (α : Type) (cells : List (Option α)) (i : Nat),
      (aliFfill cells)[i]? = (cells[i]?).map (fun c => c <|> lastSomeBefore cells i)) ∧
    (∀ (α : Type) (rows : List (Int × Option α)) (i : Nat),
      (alpFfill rows)[i]? = (rows[i]?).map (fun p => p.2 <|> lastSomeBeforeDate rows p.1 i)) ∧
    (∀ (α : Type) (sheets : List (List (Option α))) (j : Nat),
      (aliFillSheets sheets)[j]? = (sheets[j]?).map aliFfill) := by
  refine ⟨?_, ?_, ?_⟩
  · intro α cells i
    have hfun : (fun (c : Option α) => c <|> (lastSomeBefore cells i <|> none)) =
        (fun c => c <|> lastSomeBefore cells i) :=
      funext fun c => by rw [orElse_none_right]
    rw [aliFfill, ffillPlain_get, hfun]
  · intro α rows i
    have hfun : (fun (p : Int × Option α) =>
          p.2 <|> (lastSomeBeforeDate rows p.1 i <|> lookupDate [] p.1)) =
        (fun p => p.2 <|> lastSomeBeforeDate rows p.1 i) :=
      funext fun p => by
        have hl : lookupDate ([] : List (Int × α)) p.1 = none := rfl
        rw [hl, orElse_none_right]
    rw [alpFfill, ffillByDateAux_get, hfun]
  · intro α sheets j
    simp [aliFillSheets]

/-- C3 counterexample: the zero-length shift text 8-8 parses to equal
start and end times, the overnight correction does not fire on equality,
and aggregating the row yields a block whose end datetime equals its start
datetime, refuting strictness. -/
theorem c3_counterexample :
    (alpParseTurno "8-8".toList).startT = some (8, 0) ∧
    (alpParseTurno "8-8".toList).endT = some (8, 0) ∧
    overnightEnd (toDt 0 8 0) (toDt 0 8 0) = toDt 0 8 0 ∧
    (alpAggregate
        [⟨0, "BGY", "08:00-08:00", "8-8", 480, 480, false, [], [], false,
          none, none, none, 0⟩]).map (fun kb => (kb.2.startDt, kb.2.endDt)) = [(480, 480)] ∧
    ¬ (480 : Int) < 480 := by
  refine ⟨by decide, by decide, by decide, by decide, by decide⟩

/-- C3 (amended): for every row whose parsed start time is a valid clock
time the anchored end datetime is at least the start datetime (equality is
possible, e.g. for the text 8-8), and the aggregation preserves this bound
on every block it produces. -/
theorem c3_end_not_before_start :
    (∀ (d : Int) (h1 m1 h2 m2 : Nat), h1 ≤ 23 → m1 ≤ 59 →
      toDt d h1 m1 ≤ overnightEnd (toDt d h1 m1) (toDt d h2 m2)) ∧
    (∀ rows : List AlpRow, (∀ r ∈ rows, r.startDt ≤ r.endDt) →
      ∀ kb ∈ alpAggregate rows, kb.2.startDt ≤ kb.2.endDt) := by
  constructor
  · intro d h1 m1 h2 m2 hh hm
    simp only [toDt, overnightEnd]
    split_ifs with h
    · omega
    · omega
  · intro rows hrows kb hkb
    refine alpFold_inv (fun b => b.startDt ≤ b.endDt) (fun r => r.startDt ≤ r.endDt)
      ?_ ?_ rows [] (by simp) hrows kb hkb
    · intro b r hb _
      simp only [alpMergeBlock]
      split_ifs <;> simpa using hb
    · intro r hr
      simpa [alpNewBlock] using hr

/-- C3 witness at the zero-length block of the counterexample family. -/
theorem c3_end_not_before_start_witness :
    toDt 0 8 0 ≤ overnightEnd (toDt 0 8 0) (toDt 0 8 0) :=
  c3_end_not_before_start.1 0 8 0 8 0 (by decide) (by decide)

/-- C4 counterexample: the shift text 22:00-02:00 written with an en dash
parses to 22:00 and 02:00, the overnight correction moves the end one day
later, and the Alpitour night overlap with the 23:00-06:00 window is 180
minutes, not the 240 the claim states. -/
theorem c4_counterexample :
    (alpParseTurno "22:00–02:00".toList).startT = some (22, 0) ∧
    (alpParseTurno "22:00–02:00".toList).endT = some (2, 0) ∧
    overnightEnd (toDt 0 22 0) (toDt 0 2 0) = 1560 ∧
    nightMinutesAlp 1320 1560 = 180 ∧ (180 : Int) ≠ 240 := by
  refine ⟨by decide, by decide, by decide, by decide, by decide⟩

/-- C4 (amended): on every calendar day, the shift text 22:00-02:00
(crossing midnight, en-dash separator) gets one day added to its end by
the overnight correction, and the Alpitour night overlap with the
23:00-06:00 window equals 180 minutes, exactly the intersection of the
shift interval with the window. -/
theorem c4_scenario_b (k : Int) :
    (alpParseTurno "22:00–02:00".toList).startT = some (22, 0) ∧
    (alpParseTurno "22:00–02:00".toList).endT = some (2, 0) ∧
    overnightEnd (toDt k 22 0) (toDt k 2 0) = toDt k 2 0 + 1440 ∧
    nightMinutesAlp (toDt k 22 0) (toDt k 2 0 + 1440) = 180 := by
  refine ⟨by decide, by decide, ?_, ?_⟩
  · simp only [toDt, overnightEnd]
    rw [if_pos (by omega)]
  · simp only [nightMinutesAlp, toDt, overlapMin_eq]
    rw [if_neg (by push_cast; omega)]
    push_cast
    omega

/-- C5 counterexample: on the input 24-25 the claimed cascade accepts
(both hours at most 47, normalized modulo 24), but the code rejects it -
the start hour is only allowed up to 23. -/
theorem c5_counterexample :
    aliCascade ("24-25".toList) = none ∧
    c5SpecParse ("24-25".toList) = some ((0, 0), (1, 0)) :=
  ⟨rfl, rfl⟩

/-- C5 (amended): on canonical two-digit HH:MM-HH:MM texts the Aliservice
parser attempts the shapes in the stated order and accepts a match exactly
when the start hour is at most 23, minutes at most 59, and the end hour at
most 47 (normalized modulo 24 in the output); a match that fails these
bounds falls through to the later shapes, so a text whose end minutes are
out of range is still accepted through the HH:MM-HH shape with end minutes
zero. -/
theorem c5_shape_cascade (h1 m1 h2 m2 : Nat)
    (hh1 : h1 < 100) (hm1 : m1 < 100) (hh2 : h2 < 100) (hm2 : m2 < 100) :
    (aliParseTurno (famHHMM h1 m1 h2 m2)).startT =
      (if h1 ≤ 23 ∧ m1 ≤ 59 ∧ h2 ≤ 47 ∧ m2 ≤ 59 then some (h1, m1)
       else if h1 ≤ 23 ∧ m1 ≤ 59 ∧ h2 ≤ 47 then some (h1, m1) else none) ∧
    (aliParseTurno (famHHMM h1 m1 h2 m2)).endT =
      (if h1 ≤ 23 ∧ m1 ≤ 59 ∧ h2 ≤ 47 ∧ m2 ≤ 59 then some (h2 % 24, m2)
       else if h1 ≤ 23 ∧ m1 ≤ 59 ∧ h2 ≤ 47 then some (h2 % 24, 0) else none) := by
  have ha1 : h1 / 10 < 10 := by omega
  have ha2 : h1 % 10 < 10 := by omega
  have ha3 : m1 / 10 < 10 := by omega
  have ha4 : m1 % 10 < 10 := by omega
  have ha5 : h2 / 10 < 10 := by omega
  have ha6 : h2 % 10 < 10 := by omega
  have ha7 : m2 / 10 < 10 := by omega
  have ha8 : m2 % 10 < 10 := by omega
  have hfam : famHHMM h1 m1 h2 m2 =
      dch (h1 / 10) :: dch (h1 % 10) :: ':' :: dch (m1 / 10) :: dch (m1 % 10) :: '-' ::
      dch (h2 / 10) :: dch (h2 % 10) :: ':' :: dch (m2 / 10) :: dch (m2 % 10) :: [] := by
    simp [famHHMM, famSep, rend2_eq_dch]
  have hws : (dch (h1 / 10) :: dch (h1 % 10) :: ':' :: dch (m1 / 10) :: dch (m1 % 10) :: '-' ::
      dch (h2 / 10) :: dch (h2 % 10) :: ':' :: dch (m2 / 10) :: dch (m2 % 10) :: []).all
        (fun c => !isWsCh c) = true := by
    simp [List.all_cons, isWs_dch _ ha1, isWs_dch _ ha2, isWs_dch _ ha3, isWs_dch _ ha4,
      isWs_dch _ ha5, isWs_dch _ ha6, isWs_dch _ ha7, isWs_dch _ ha8,
      show isWsCh ':' = false from rfl, show isWsCh '-' = false from rfl]
  have hnN : (dch (h1 / 10) :: dch (h1 % 10) :: ':' :: dch (m1 / 10) :: dch (m1 % 10) :: '-' ::
      dch (h2 / 10) :: dch (h2 % 10) :: ':' :: dch (m2 / 10) :: dch (m2 % 10) :: []).all
        (fun c => !((c == 'n') || (c == 'N'))) = true := by
    simp [List.all_cons, beq_dch_lower_n _ ha1, beq_dch_upper_n _ ha1,
      beq_dch_lower_n _ ha2, beq_dch_upper_n _ ha2,
      beq_dch_lower_n _ ha3, beq_dch_upper_n _ ha3,
      beq_dch_lower_n _ ha4, beq_dch_upper_n _ ha4,
      beq_dch_lower_n _ ha5, beq_dch_upper_n _ ha5,
      beq_dch_lower_n _ ha6, beq_dch_upper_n _ ha6,
      beq_dch_lower_n _ ha7, beq_dch_upper_n _ ha7,
      beq_dch_lower_n _ ha8, beq_dch_upper_n _ ha8]
  have hupN : ((dch (h1 / 10) :: dch (h1 % 10) :: ':' :: dch (m1 / 10) :: dch (m1 % 10) :: '-' ::
      dch (h2 / 10) :: dch (h2 % 10) :: ':' :: dch (m2 / 10) :: dch (m2 % 10) :: []).map
        Char.toUpper).all (fun c => !('N' == c)) = true := by
    simp only [List.map_cons, List.map_nil, toUpper_dch _ ha1, toUpper_dch _ ha2,
      toUpper_dch _ ha3, toUpper_dch _ ha4, toUpper_dch _ ha5, toUpper_dch _ ha6,
      toUpper_dch _ ha7, toUpper_dch _ ha8,
      show Char.toUpper ':' = ':' from rfl, show Char.toUpper '-' = '-' from rfl]
    simp [List.all_cons, beq_upperN_dch _ ha1, beq_upperN_dch _ ha2,
      beq_upperN_dch _ ha3, beq_upperN_dch _ ha4, beq_upperN_dch _ ha5,
      beq_upperN_dch _ ha6, beq_upperN_dch _ ha7, beq_upperN_dch _ ha8]
  have hres : aliParseTurno (famHHMM h1 m1 h2 m2) =
      (if h1 ≤ 23 ∧ m1 ≤ 59 ∧ h2 ≤ 47 ∧ m2 ≤ 59 then
         (⟨some (h1, m1), some (h2 % 24, m2), false,
           hmRender h1 m1 ++ '-' :: hmRender (h2 % 24) m2⟩ : ParsedTurno)
       else if h1 ≤ 23 ∧ m1 ≤ 59 ∧ h2 ≤ 47 then
         (⟨some (h1, m1), some (h2 % 24, 0), false,
           hmRender h1 m1 ++ '-' :: hmRender (h2 % 24) 0⟩ : ParsedTurno)
       else ⟨none, none, false,
         dch (h1 / 10) :: dch (h1 % 10) :: ':' :: dch (m1 / 10) :: dch (m1 % 10) :: '-' ::
         dch (h2 / 10) :: dch (h2 % 10) :: ':' :: dch (m2 / 10) :: dch (m2 % 10) :: []⟩) := by
    rw [hfam, aliParseTurno_clean _ (by rfl) hws hnN hupN (stripSc_dch _ ha1 _),
      aliCascade_famHHMM h1 m1 h2 m2 hh1 hm1 hh2 hm2]
    split_ifs <;> rfl
  constructor
  · rw [hres]
    split_ifs <;> rfl
  · rw [hres]
    split_ifs <;> rfl

/-- C5 witness at the in-bounds input of the first branch. -/
theorem c5_shape_cascade_witness :
    (aliParseTurno (famHHMM 8 30 11 30)).startT =
      (if 8 ≤ 23 ∧ 30 ≤ 59 ∧ 11 ≤ 47 ∧ 30 ≤ 59 then some (8, 30)
       else if 8 ≤ 23 ∧ 30 ≤ 59 ∧ 11 ≤ 47 then some (8, 30) else none) ∧
    (aliParseTurno (famHHMM 8 30 11 30)).endT =
      (if 8 ≤ 23 ∧ 30 ≤ 59 ∧ 11 ≤ 47 ∧ 30 ≤ 59 then some (11 % 24, 30)
       else if 8 ≤ 23 ∧ 30 ≤ 59 ∧ 11 ≤ 47 then some (11 % 24, 0) else none) :=
  c5_shape_cascade 8 30 11 30 (by decide) (by decide) (by decide) (by decide)

theorem c7AuxAli (h1 m1 h2 m2 : Nat)
    (hh1 : h1 < 24) (hm1 : m1 < 60) (hh2 : h2 < 24) (hm2 : m2 < 60)
    (p q dash : Char) (hp : p = ':' ∨ p = '.') (hq : q = ':' ∨ q = '.')
    (hdash : dash = '-' ∨ dash = '–' ∨ dash = '—') :
    (aliParseTurno (famSep h1 m1 h2 m2 p dash q)).startT = some (h1, m1) ∧
    (aliParseTurno (famSep h1 m1 h2 m2 p dash q)).endT = some (h2, m2) := by
  have ha1 : h1 / 10 < 10 := by omega
  have ha2 : h1 % 10 < 10 := by omega
  have ha3 : m1 / 10 < 10 := by omega
  have ha4 : m1 % 10 < 10 := by omega
  have ha5 : h2 / 10 < 10 := by omega
  have ha6 : h2 % 10 < 10 := by omega
  have ha7 : m2 / 10 < 10 := by omega
  have ha8 : m2 % 10 < 10 := by omega
  have hr1 : 10 * (h1 / 10) + h1 % 10 = h1 := by omega
  have hr2 : 10 * (m1 / 10) + m1 % 10 = m1 := by omega
  have hr3 : 10 * (h2 / 10) + h2 % 10 = h2 := by omega
  have hr4 : 10 * (m2 / 10) + m2 % 10 = m2 := by omega
  have hpws : isWsCh p = false := by rcases hp with rfl | rfl <;> rfl
  have hqws : isWsCh q = false := by rcases hq with rfl | rfl <;> rfl
  have hdws : isWsCh dash = false := by rcases hdash with rfl | rfl | rfl <;> rfl
  have hpn : ((p == 'n') || (p == 'N')) = false := by rcases hp with rfl | rfl <;> rfl
  have hqn : ((q == 'n') || (q == 'N')) = false := by rcases hq with rfl | rfl <;> rfl
  have hdn : ((dash == 'n') || (dash == 'N')) = false := by
    rcases hdash with rfl | rfl | rfl <;> rfl
  have hpu : Char.toUpper p = p := by rcases hp with rfl | rfl <;> rfl
  have hqu : Char.toUpper q = q := by rcases hq with rfl | rfl <;> rfl
  have hdu : Char.toUpper dash = dash := by rcases hdash with rfl | rfl | rfl <;> rfl
  have hpN : ('N' == p) = false := by rcases hp with rfl | rfl <;> rfl
  have hqN : ('N' == q) = false := by rcases hq with rfl | rfl <;> rfl
  have hdN : ('N' == dash) = false := by rcases hdash with rfl | rfl | rfl <;> rfl
  have hfam : famSep h1 m1 h2 m2 p dash q =
      dch (h1 / 10) :: dch (h1 % 10) :: p :: dch (m1 / 10) :: dch (m1 % 10) :: dash ::
      dch (h2 / 10) :: dch (h2 % 10) :: q :: dch (m2 / 10) :: dch (m2 % 10) :: [] := by
    simp [famSep, rend2_eq_dch]
  have hws : (dch (h1 / 10) :: dch (h1 % 10) :: p :: dch (m1 / 10) :: dch (m1 % 10) :: dash ::
      dch (h2 / 10) :: dch (h2 % 10) :: q :: dch (m2 / 10) :: dch (m2 % 10) :: []).all
        (fun c => !isWsCh c) = true := by
    simp [List.all_cons, isWs_dch _ ha1, isWs_dch _ ha2, isWs_dch _ ha3, isWs_dch _ ha4,
      isWs_dch _ ha5, isWs_dch _ ha6, isWs_dch _ ha7, isWs_dch _ ha8, hpws, hqws, hdws]
  have hnN : (dch (h1 / 10) :: dch (h1 % 10) :: p :: dch (m1 / 10) :: dch (m1 % 10) :: dash ::
      dch (h2 / 10) :: dch (h2 % 10) :: q :: dch (m2 / 10) :: dch (m2 % 10) :: []).all
        (fun c => !((c == 'n') || (c == 'N'))) = true := by
    simp only [List.all_cons, List.all_nil, hpn, hqn, hdn,
      beq_dch_lower_n _ ha1, beq_dch_upper_n _ ha1, beq_dch_lower_n _ ha2, beq_dch_upper_n _ ha2,
      beq_dch_lower_n _ ha3, beq_dch_upper_n _ ha3, beq_dch_lower_n _ ha4, beq_dch_upper_n _ ha4,
      beq_dch_lower_n _ ha5, beq_dch_upper_n _ ha5, beq_dch_lower_n _ ha6, beq_dch_upper_n _ ha6,
      beq_dch_lower_n _ ha7, beq_dch_upper_n _ ha7, beq_dch_lower_n _ ha8, beq_dch_upper_n _ ha8]
    rfl
  have hupN : ((dch (h1 / 10) :: dch (h1 % 10) :: p :: dch (m1 / 10) :: dch (m1 % 10) :: dash ::
      dch (h2 / 10) :: dch (h2 % 10) :: q :: dch (m2 / 10) :: dch (m2 % 10) :: []).map
        Char.toUpper).all (fun c => !('N' == c)) = true := by
    simp only [List.map_cons, List.map_nil, hpu, hqu, hdu, toUpper_dch _ ha1, toUpper_dch _ ha2,
      toUpper_dch _ ha3, toUpper_dch _ ha4, toUpper_dch _ ha5, toUpper_dch _ ha6,
      toUpper_dch _ ha7, toUpper_dch _ ha8]
    simp only [List.all_cons, List.all_nil, hpN, hqN, hdN,
      beq_upperN_dch _ ha1, beq_upperN_dch _ ha2, beq_upperN_dch _ ha3, beq_upperN_dch _ ha4,
      beq_upperN_dch _ ha5, beq_upperN_dch _ ha6, beq_upperN_dch _ ha7, beq_upperN_dch _ ha8]
    rfl
  have hcas : aliCascade (dch (h1 / 10) :: dch (h1 % 10) :: p :: dch (m1 / 10) ::
      dch (m1 % 10) :: dash :: dch (h2 / 10) :: dch (h2 % 10) :: q :: dch (m2 / 10) ::
      dch (m2 % 10) :: []) = some ((h1, m1), (h2 % 24, m2)) := by
    rw [aliCascade, aliP1_fam _ _ _ _ _ _ _ _ ha1 ha2 ha3 ha4 ha5 ha6 ha7 ha8 _ _ _ hp hq hdash]
    simp only [Option.some_bind]
    rw [aliGroupsToHM_four _ _ _ _ _ _ _ _ _ ha1 ha2 ha3 ha4 ha5 ha6 ha7 ha8,
      hr1, hr2, hr3, hr4]
    simp only [Option.some_bind, aliAccept]
    rw [if_pos ⟨by omega, by omega, by omega, by omega⟩]
    simp
  rw [hfam, aliParseTurno_clean _ (by rfl) hws hnN hupN (stripSc_dch _ ha1 _), hcas]
  exact ⟨rfl, by simp [Nat.mod_eq_of_lt hh2]⟩

theorem c7AuxAlp (h1 m1 h2 m2 : Nat)
    (hh1 : h1 < 24) (hm1 : m1 < 60) (hh2 : h2 < 24) (hm2 : m2 < 60)
    (p q dash : Char) (hp : p = ':' ∨ p = '.' ∨ p = ';') (hq : q = ':' ∨ q = '.' ∨ q = ';')
    (hdash : dash = '-' ∨ dash = '–' ∨ dash = '—') :
    (alpParseTurno (famSep h1 m1 h2 m2 p dash q)).startT = some (h1, m1) ∧
    (alpParseTurno (famSep h1 m1 h2 m2 p dash q)).endT = some (h2, m2) := by
  have ha1 : h1 / 10 < 10 := by omega
  have ha2 : h1 % 10 < 10 := by omega
  have ha3 : m1 / 10 < 10 := by omega
  have ha4 : m1 % 10 < 10 := by omega
  have ha5 : h2 / 10 < 10 := by omega
  have ha6 : h2 % 10 < 10 := by omega
  have ha7 : m2 / 10 < 10 := by omega
  have ha8 : m2 % 10 < 10 := by omega
  have hr1 : 10 * (h1 / 10) + h1 % 10 = h1 := by omega
  have hr2 : 10 * (m1 / 10) + m1 % 10 = m1 := by omega
  have hr3 : 10 * (h2 / 10) + h2 % 10 = h2 := by omega
  have hr4 : 10 * (m2 / 10) + m2 % 10 = m2 := by omega
  have hpws : isWsCh p = false := by rcases hp with rfl | rfl | rfl <;> rfl
  have hqws : isWsCh q = false := by rcases hq with rfl | rfl | rfl <;> rfl
  have hdws : isWsCh dash = false := by rcases hdash with rfl | rfl | rfl <;> rfl
  have hpn : ((p == 'n') || (p == 'N')) = false := by rcases hp with rfl | rfl | rfl <;> rfl
  have hqn : ((q == 'n') || (q == 'N')) = false := by rcases hq with rfl | rfl | rfl <;> rfl
  have hdn : ((dash == 'n') || (dash == 'N')) = false := by
    rcases hdash with rfl | rfl | rfl <;> rfl
  have hph : hyphMapCh p = p := by rcases hp with rfl | rfl | rfl <;> rfl
  have hqh : hyphMapCh q = q := by rcases hq with rfl | rfl | rfl <;> rfl
  have hdh : hyphMapCh dash = '-' := by rcases hdash with rfl | rfl | rfl <;> rfl
  have hpd : dotSemiToColon p = ':' := by rcases hp with rfl | rfl | rfl <;> rfl
  have hqd : dotSemiToColon q = ':' := by rcases hq with rfl | rfl | rfl <;> rfl
  have hfam : famSep h1 m1 h2 m2 p dash q =
      dch (h1 / 10) :: dch (h1 % 10) :: p :: dch (m1 / 10) :: dch (m1 % 10) :: dash ::
      dch (h2 / 10) :: dch (h2 % 10) :: q :: dch (m2 / 10) :: dch (m2 % 10) :: [] := by
    simp [famSep, rend2_eq_dch]
  have hws : (dch (h1 / 10) :: dch (h1 % 10) :: p :: dch (m1 / 10) :: dch (m1 % 10) :: dash ::
      dch (h2 / 10) :: dch (h2 % 10) :: q :: dch (m2 / 10) :: dch (m2 % 10) :: []).all
        (fun c => !isWsCh c) = true := by
    simp [List.all_cons, isWs_dch _ ha1, isWs_dch _ ha2, isWs_dch _ ha3, isWs_dch _ ha4,
      isWs_dch _ ha5, isWs_dch _ ha6, isWs_dch _ ha7, isWs_dch _ ha8, hpws, hqws, hdws]
  have hnN : (dch (h1 / 10) :: dch (h1 % 10) :: p :: dch (m1 / 10) :: dch (m1 % 10) :: dash ::
      dch (h2 / 10) :: dch (h2 % 10) :: q :: dch (m2 / 10) :: dch (m2 % 10) :: []).all
        (fun c => !((c == 'n') || (c == 'N'))) = true := by
    simp only [List.all_cons, List.all_nil, hpn, hqn, hdn,
      beq_dch_lower_n _ ha1, beq_dch_upper_n _ ha1, beq_dch_lower_n _ ha2, beq_dch_upper_n _ ha2,
      beq_dch_lower_n _ ha3, beq_dch_upper_n _ ha3, beq_dch_lower_n _ ha4, beq_dch_upper_n _ ha4,
      beq_dch_lower_n _ ha5, beq_dch_upper_n _ ha5, beq_dch_lower_n _ ha6, beq_dch_upper_n _ ha6,
      beq_dch_lower_n _ ha7, beq_dch_upper_n _ ha7, beq_dch_lower_n _ ha8, beq_dch_upper_n _ ha8]
    rfl
  have hs := normalizeSpaces_eq_self _ hws
  have hnd := noDecSearchB_false _ hnN
  have hhyph : normalizeHyphens (dch (h1 / 10) :: dch (h1 % 10) :: p :: dch (m1 / 10) ::
      dch (m1 % 10) :: dash :: dch (h2 / 10) :: dch (h2 % 10) :: q :: dch (m2 / 10) ::
      dch (m2 % 10) :: []) =
      dch (h1 / 10) :: dch (h1 % 10) :: p :: dch (m1 / 10) :: dch (m1 % 10) :: '-' ::
      dch (h2 / 10) :: dch (h2 % 10) :: q :: dch (m2 / 10) :: dch (m2 % 10) :: [] := by
    simp only [normalizeHyphens, List.map_cons, List.map_nil, hph, hqh, hdh,
      hyphMap_dch _ ha1, hyphMap_dch _ ha2, hyphMap_dch _ ha3, hyphMap_dch _ ha4,
      hyphMap_dch _ ha5, hyphMap_dch _ ha6, hyphMap_dch _ ha7, hyphMap_dch _ ha8]
  have hsub := subCombinedAlp_fam _ _ _ _ _ _ _ _ ha1 ha2 ha3 ha4 ha5 ha6 ha7 ha8 p q hp hq
  have hmap : (dch (h1 / 10) :: dch (h1 % 10) :: p :: dch (m1 / 10) :: dch (m1 % 10) :: '-' ::
      dch (h2 / 10) :: dch (h2 % 10) :: q :: dch (m2 / 10) :: dch (m2 % 10) :: []).map
        dotSemiToColon =
      dch (h1 / 10) :: dch (h1 % 10) :: ':' :: dch (m1 / 10) :: dch (m1 % 10) :: '-' ::
      dch (h2 / 10) :: dch (h2 % 10) :: ':' :: dch (m2 / 10) :: dch (m2 % 10) :: [] := by
    simp only [List.map_cons, List.map_nil, hpd, hqd,
      show dotSemiToColon '-' = '-' from rfl,
      dotSemi_dch _ ha1, dotSemi_dch _ ha2, dotSemi_dch _ ha3, dotSemi_dch _ ha4,
      dotSemi_dch _ ha5, dotSemi_dch _ ha6, dotSemi_dch _ ha7, dotSemi_dch _ ha8]
  have hsr := searchRange_fam (h1 / 10) (h1 % 10) (m1 / 10) (m1 % 10) (h2 / 10) (h2 % 10)
    (m2 / 10) (m2 % 10) ha1 ha2 ha3 ha4 ha5 ha6 ha7 ha8
  rw [hfam]
  simp only [alpParseTurno, hs, hnd, hhyph, hsub, hmap, hsr]
  refine ⟨?_, ?_⟩ <;>
    simp [digitsToNat_dd _ _ ha1 ha2, digitsToNat_dd _ _ ha3 ha4,
      digitsToNat_dd _ _ ha5 ha6, digitsToNat_dd _ _ ha7 ha8, hr1, hr2, hr3, hr4]

theorem c7AuxVer (h1 m1 h2 m2 : Nat)
    (hh1 : h1 < 24) (hm1 : m1 < 60) (hh2 : h2 < 24) (hm2 : m2 < 60)
    (p q dash : Char) (hp : p = ':' ∨ p = '.') (hq : q = ':' ∨ q = '.')
    (hdash : dash = '-' ∨ dash = '–' ∨ dash = '—') :
    (verParseTurno (famSep h1 m1 h2 m2 p dash q)).startT = some (h1, m1) ∧
    (verParseTurno (famSep h1 m1 h2 m2 p dash q)).endT = some (h2, m2) := by
  have ha1 : h1 / 10 < 10 := by omega
  have ha2 : h1 % 10 < 10 := by omega
  have ha3 : m1 / 10 < 10 := by omega
  have ha4 : m1 % 10 < 10 := by omega
  have ha5 : h2 / 10 < 10 := by omega
  have ha6 : h2 % 10 < 10 := by omega
  have ha7 : m2 / 10 < 10 := by omega
  have ha8 : m2 % 10 < 10 := by omega
  have hr1 : 10 * (h1 / 10) + h1 % 10 = h1 := by omega
  have hr2 : 10 * (m1 / 10) + m1 % 10 = m1 := by omega
  have hr3 : 10 * (h2 / 10) + h2 % 10 = h2 := by omega
  have hr4 : 10 * (m2 / 10) + m2 % 10 = m2 := by omega
  have hpws : isWsCh p = false := by rcases hp with rfl | rfl <;> rfl
  have hqws : isWsCh q = false := by rcases hq with rfl | rfl <;> rfl
  have hdws : isWsCh dash = false := by rcases hdash with rfl | rfl | rfl <;> rfl
  have hpn : ((p == 'n') || (p == 'N')) = false := by rcases hp with rfl | rfl <;> rfl
  have hqn : ((q == 'n') || (q == 'N')) = false := by rcases hq with rfl | rfl <;> rfl
  have hdn : ((dash == 'n') || (dash == 'N')) = false := by
    rcases hdash with rfl | rfl | rfl <;> rfl
  have hph : hyphMapCh p = p := by rcases hp with rfl | rfl <;> rfl
  have hqh : hyphMapCh q = q := by rcases hq with rfl | rfl <;> rfl
  have hdh : hyphMapCh dash = '-' := by rcases hdash with rfl | rfl | rfl <;> rfl
  have hpd : dotToColon p = ':' := by rcases hp with rfl | rfl <;> rfl
  have hqd : dotToColon q = ':' := by rcases hq with rfl | rfl <;> rfl
  have hfam : famSep h1 m1 h2 m2 p dash q =
      dch (h1 / 10) :: dch (h1 % 10) :: p :: dch (m1 / 10) :: dch (m1 % 10) :: dash ::
      dch (h2 / 10) :: dch (h2 % 10) :: q :: dch (m2 / 10) :: dch (m2 % 10) :: [] := by
    simp [famSep, rend2_eq_dch]
  have hws : (dch (h1 / 10) :: dch (h1 % 10) :: p :: dch (m1 / 10) :: dch (m1 % 10) :: dash ::
      dch (h2 / 10) :: dch (h2 % 10) :: q :: dch (m2 / 10) :: dch (m2 % 10) :: []).all
        (fun c => !isWsCh c) = true := by
    simp [List.all_cons, isWs_dch _ ha1, isWs_dch _ ha2, isWs_dch _ ha3, isWs_dch _ ha4,
      isWs_dch _ ha5, isWs_dch _ ha6, isWs_dch _ ha7, isWs_dch _ ha8, hpws, hqws, hdws]
  have hnN : (dch (h1 / 10) :: dch (h1 % 10) :: p :: dch (m1 / 10) :: dch (m1 % 10) :: dash ::
      dch (h2 / 10) :: dch (h2 % 10) :: q :: dch (m2 / 10) :: dch (m2 % 10) :: []).all
        (fun c => !((c == 'n') || (c == 'N'))) = true := by
    simp only [List.all_cons, List.all_nil, hpn, hqn, hdn,
      beq_dch_lower_n _ ha1, beq_dch_upper_n _ ha1, beq_dch_lower_n _ ha2, beq_dch_upper_n _ ha2,
      beq_dch_lower_n _ ha3, beq_dch_upper_n _ ha3, beq_dch_lower_n _ ha4, beq_dch_upper_n _ ha4,
      beq_dch_lower_n _ ha5, beq_dch_upper_n _ ha5, beq_dch_lower_n _ ha6, beq_dch_upper_n _ ha6,
      beq_dch_lower_n _ ha7, beq_dch_upper_n _ ha7, beq_dch_lower_n _ ha8, beq_dch_upper_n _ ha8]
    rfl
  have hs := normalizeSpaces_eq_self _ hws
  have hnd := noDecSearchB_false _ hnN
  have hhyph : normalizeHyphens (dch (h1 / 10) :: dch (h1 % 10) :: p :: dch (m1 / 10) ::
      dch (m1 % 10) :: dash :: dch (h2 / 10) :: dch (h2 % 10) :: q :: dch (m2 / 10) ::
      dch (m2 % 10) :: []) =
      dch (h1 / 10) :: dch (h1 % 10) :: p :: dch (m1 / 10) :: dch (m1 % 10) :: '-' ::
      dch (h2 / 10) :: dch (h2 % 10) :: q :: dch (m2 / 10) :: dch (m2 % 10) :: [] := by
    simp only [normalizeHyphens, List.map_cons, List.map_nil, hph, hqh, hdh,
      hyphMap_dch _ ha1, hyphMap_dch _ ha2, hyphMap_dch _ ha3, hyphMap_dch _ ha4,
      hyphMap_dch _ ha5, hyphMap_dch _ ha6, hyphMap_dch _ ha7, hyphMap_dch _ ha8]
  have hsub := subCombinedVer_fam _ _ _ _ _ _ _ _ ha1 ha2 ha3 ha4 ha5 ha6 ha7 ha8 p q hp hq
  have hmap : (dch (h1 / 10) :: dch (h1 % 10) :: p :: dch (m1 / 10) :: dch (m1 % 10) :: '-' ::
      dch (h2 / 10) :: dch (h2 % 10) :: q :: dch (m2 / 10) :: dch (m2 % 10) :: []).map
        dotToColon =
      dch (h1 / 10) :: dch (h1 % 10) :: ':' :: dch (m1 / 10) :: dch (m1 % 10) :: '-' ::
      dch (h2 / 10) :: dch (h2 % 10) :: ':' :: dch (m2 / 10) :: dch (m2 % 10) :: [] := by
    simp only [List.map_cons, List.map_nil, hpd, hqd,
      show dotToColon '-' = '-' from rfl,
      dotColon_dch _ ha1, dotColon_dch _ ha2, dotColon_dch _ ha3, dotColon_dch _ ha4,
      dotColon_dch _ ha5, dotColon_dch _ ha6, dotColon_dch _ ha7, dotColon_dch _ ha8]
  have hsr := searchRange_fam (h1 / 10) (h1 % 10) (m1 / 10) (m1 % 10) (h2 / 10) (h2 % 10)
    (m2 / 10) (m2 % 10) ha1 ha2 ha3 ha4 ha5 ha6 ha7 ha8
  rw [hfam]
  simp only [verParseTurno, hs, hnd, hhyph, hsub, hmap, hsr]
  refine ⟨?_, ?_⟩ <;>
    simp [digitsToNat_dd _ _ ha1 ha2, digitsToNat_dd _ _ ha3 ha4,
      digitsToNat_dd _ _ ha5 ha6, digitsToNat_dd _ _ ha7 ha8, hr1, hr2, hr3, hr4]

/-- C7 counterexample: the semicolon hour-minute separator is not in the
Aliservice pattern alphabet, so 08;30-11;30 parses to nothing there while
the colon spelling of the same times parses fully. -/
theorem c7_counterexample :
    (aliParseTurno ("08;30-11;30".toList)).startT = none ∧
    (aliParseTurno ("08:30-11:30".toList)).startT = some (8, 30) ∧
    (aliParseTurno ("08:30-11:30".toList)).endT = some (11, 30) :=
  ⟨rfl, rfl, rfl⟩

/-- C7 (amended): separator-choice invariance holds per parser over that
parser's own separator alphabet. For every in-range time pair and every
range separator among hyphen, en dash and em dash: the Aliservice and
veratour parsers recover exactly (start, end) when each hour-minute
separator is a colon or a period, and the Alpitour parser when each is a
colon, a period or a semicolon; the semicolon is not in the Aliservice or
veratour alphabet. -/
theorem c7_separator_invariance :
    (∀ h1 m1 h2 m2 : Nat, h1 < 24 → m1 < 60 → h2 < 24 → m2 < 60 →
      ∀ p q dash : Char, p = ':' ∨ p = '.' → q = ':' ∨ q = '.' →
        dash = '-' ∨ dash = '–' ∨ dash = '—' →
        (aliParseTurno (famSep h1 m1 h2 m2 p dash q)).startT = some (h1, m1) ∧
        (aliParseTurno (famSep h1 m1 h2 m2 p dash q)).endT = some (h2, m2)) ∧
    (∀ h1 m1 h2 m2 : Nat, h1 < 24 → m1 < 60 → h2 < 24 → m2 < 60 →
      ∀ p q dash : Char, p = ':' ∨ p = '.' ∨ p = ';' → q = ':' ∨ q = '.' ∨ q = ';' →
        dash = '-' ∨ dash = '–' ∨ dash = '—' →
        (alpParseTurno (famSep h1 m1 h2 m2 p dash q)).startT = some (h1, m1) ∧
        (alpParseTurno (famSep h1 m1 h2 m2 p dash q)).endT = some (h2, m2)) ∧
    (∀ h1 m1 h2 m2 : Nat, h1 < 24 → m1 < 60 → h2 < 24 → m2 < 60 →
      ∀ p q dash : Char, p = ':' ∨ p = '.' → q = ':' ∨ q = '.' →
        dash = '-' ∨ dash = '–' ∨ dash = '—' →
        (verParseTurno (famSep h1 m1 h2 m2 p dash q)).startT = some (h1, m1) ∧
        (verParseTurno (famSep h1 m1 h2 m2 p dash q)).endT = some (h2, m2)) :=
  ⟨fun h1 m1 h2 m2 hh1 hm1 hh2 hm2 p q dash hp hq hd =>
      c7AuxAli h1 m1 h2 m2 hh1 hm1 hh2 hm2 p q dash hp hq hd,
   fun h1 m1 h2 m2 hh1 hm1 hh2 hm2 p q dash hp hq hd =>
      c7AuxAlp h1 m1 h2 m2 hh1 hm1 hh2 hm2 p q dash hp hq hd,
   fun h1 m1 h2 m2 hh1 hm1 hh2 hm2 p q dash hp hq hd =>
      c7AuxVer h1 m1 h2 m2 hh1 hm1 hh2 hm2 p q dash hp hq hd⟩

/-- C7 witness: one concrete non-canonical spelling per parser. -/
theorem c7_separator_invariance_witness :
    (aliParseTurno (famSep 8 30 11 30 '.' '–' '.')).startT = some (8, 30) ∧
    (alpParseTurno (famSep 9 15 17 45 ';' '—' ';')).endT = some (17, 45) ∧
    (verParseTurno (famSep 7 5 13 0 '.' '-' ':')).startT = some (7, 5) :=
  ⟨(c7_separator_invariance.1 8 30 11 30 (by decide) (by decide) (by decide) (by decide)
      '.' '.' '–' (Or.inr rfl) (Or.inr rfl) (Or.inr (Or.inl rfl))).1,
   (c7_separator_invariance.2.1 9 15 17 45 (by decide) (by decide) (by decide) (by decide)
      ';' ';' '—' (Or.inr (Or.inr rfl)) (Or.inr (Or.inr rfl)) (Or.inr (Or.inr rfl))).2,
   (c7_separator_invariance.2.2 7 5 13 0 (by decide) (by decide) (by decide) (by decide)
      '.' ':' '-' (Or.inr rfl) (Or.inl rfl) (Or.inl rfl)).1⟩

end PianoLavoro
